import Mathlib

/-!
# FX Bus — shallow embedding and verification

A shallow embedding of the fxbus module's effect lifecycle engine:
the frame scheduler (`scripts/ticker.js`), the token oscillation effect
(`scripts/effects/tokenOscillationFx.js`, the world/local baseline version),
the screen shake (`scripts/effects/screenShakeFx.js`), the screen pulse
(`scripts/effects/screenPulseFx.js`), the chromatic aberration and screen
smear effects (`screenChromAbFx.js` / `screenSmearFx.js`), and the global
reset controller (`fxbusResetFx.js`).

Modelling conventions:
* JS numbers are modelled as `ℚ`; the `Number.isFinite(x) ? x : d` tests on
  optional payload fields become `Option ℚ` with `Option.getD`.
* `Math.sin` / `Math.cos` / `Math.PI` are opaque host functions; the
  embedding is parametric over a `TrigEnv` supplying them, so every theorem
  holds for an arbitrary sine/cosine.
* `Math.random()` draws are passed as explicit extra inputs where they occur
  (the smear jitter), which is precisely what makes nondeterminism visible.
* JS `Map`s are association lists with unique keys; `Map.set` replaces in
  place, `Map.delete` removes the key.
* The FNV-1a hash works on 32-bit unsigned values: `Nat` arithmetic mod 2^32
  mirrors `Math.imul` / `>>> 0` exactly (`charCodeAt` = the character's
  code unit; identical for the BMP strings used as ids).
-/

namespace FxBus

/- ------------------------------------------------------------------ -/
/- Generic association-list operations (JS `Map` semantics).          -/
/- ------------------------------------------------------------------ -/

/-- `Map.get`: first entry with the given key. -/
def lookupKey {τ : Type} : List (String × τ) → String → Option τ
  | [], _ => none
  | p :: rest, k => if p.1 = k then some p.2 else lookupKey rest k

/-- `Map.delete`: drop the entry with the given key. -/
def eraseKey {τ : Type} : List (String × τ) → String → List (String × τ)
  | [], _ => []
  | p :: rest, k => if p.1 = k then eraseKey rest k else p :: eraseKey rest k

/-- `Map.set`: replace in place if present, append otherwise. -/
def setKey {τ : Type} : List (String × τ) → String → τ → List (String × τ)
  | [], k, v => [(k, v)]
  | p :: rest, k, v => if p.1 = k then (k, v) :: rest else p :: setKey rest k v

/-- Number of entries under a key (for stating the "at most one" invariant). -/
def countKey {τ : Type} : List (String × τ) → String → Nat
  | [], _ => 0
  | p :: rest, k => (if p.1 = k then 1 else 0) + countKey rest k

/- ------------------------------------------------------------------ -/
/- scripts/utils.js — math helpers.                                   -/
/- ------------------------------------------------------------------ -/

/-- `clamp(value, min, max) = Math.min(max, Math.max(min, value))`. -/
def clamp (value lo hi : ℚ) : ℚ := min hi (max lo value)

/-- `lerp(a, b, t) = a + (b - a) * t`. -/
def lerp (a b t : ℚ) : ℚ := a + (b - a) * t

/-- `easeOutQuad(t) = 1 - (1 - t) * (1 - t)`. -/
def easeOutQuad (t : ℚ) : ℚ := 1 - (1 - t) * (1 - t)

/-- Opaque host trigonometry: `Math.sin`, `Math.cos`, `Math.PI`.
The embedding is parametric in these, so theorems hold for any sine. -/
structure TrigEnv where
  sin : ℚ → ℚ
  cos : ℚ → ℚ
  pi : ℚ

/-- `degToRad(deg) = deg * Math.PI / 180`. -/
def degToRad (env : TrigEnv) (deg : ℚ) : ℚ := deg * env.pi / 180

/- ------------------------------------------------------------------ -/
/- scripts/ticker.js — frame scheduler, plus the runtime object       -/
/- shared with fxbusResetFx.js.                                       -/
/- ------------------------------------------------------------------ -/

/-- The module runtime: `runtime.tickers` (effect name → installed callback),
the host `canvas.app.ticker` callback list (`installed`, each entry tagged
with the effect name it was registered under and a unique callback identity),
a freshness counter generating callback identities, the console log, and the
two effect state stores `runtime.tokenFx` / `runtime.screenFx`. -/
structure Runtime (α β : Type) where
  tickers : List (String × Nat)
  installed : List (String × Nat)
  fresh : Nat
  log : List String
  tokenFx : List (String × List (String × α))
  screenFx : List (String × β)

/-- The pristine runtime (no effects, no tickers). -/
def initRuntime (α β : Type) : Runtime α β :=
  { tickers := [], installed := [], fresh := 0, log := [],
    tokenFx := [], screenFx := [] }

/-- `ticker.remove(fn)`: drop the callback with the given identity from the
host ticker list. -/
def removeId : List (String × Nat) → Nat → List (String × Nat)
  | [], _ => []
  | p :: rest, id => if p.2 = id then removeId rest id else p :: removeId rest id

/-- `ensureTicker(runtime, effectName, tickFn)`: if a callback already exists
for the name it is removed from the host ticker and from `runtime.tickers`,
then the new wrapped callback is registered under the name and added to the
host ticker. -/
def ensureTicker {α β : Type} (r : Runtime α β) (name : String) : Runtime α β :=
  let r1 :=
    match lookupKey r.tickers name with
    | some id =>
        { r with installed := removeId r.installed id,
                 tickers := eraseKey r.tickers name }
    | none => r
  { r1 with tickers := r1.tickers ++ [(name, r1.fresh)],
            installed := r1.installed ++ [(name, r1.fresh)],
            fresh := r1.fresh + 1 }

/-- `cleanupTicker(runtime, effectName)`: remove the callback for the name
from the host ticker and from `runtime.tickers`; a no-op when absent. -/
def cleanupTicker {α β : Type} (r : Runtime α β) (name : String) : Runtime α β :=
  match lookupKey r.tickers name with
  | none => r
  | some id =>
      { r with installed := removeId r.installed id,
               tickers := eraseKey r.tickers name }

/-- The `wrapped` closure built by `ensureTicker`: derives `deltaMS` from
`ticker.deltaMS` (falling back to `1000/60` when non-finite), runs the tick
body inside try/catch, and on a throw logs and removes this effect's ticker.
The body is modelled as a function returning the runtime it left behind
together with `Except.error` when it threw. -/
def wrappedTick {α β : Type}
    (tickFn : Runtime α β → ℚ → Runtime α β × Except String Unit)
    (name : String) (r : Runtime α β) (rawDeltaMS : Option ℚ) : Runtime α β :=
  let deltaMS := rawDeltaMS.getD (1000 / 60)
  let out := tickFn r deltaMS
  match out.2 with
  | Except.ok _ => out.1
  | Except.error e =>
      cleanupTicker
        { out.1 with log := out.1.log ++ [name ++ " tick failed: " ++ e] } name

/-- Scheduler well-formedness: the host ticker holds exactly the callbacks of
`runtime.tickers`, names and callback identities are unique, and identities
are below the freshness counter. -/
def TickerWF {α β : Type} (r : Runtime α β) : Prop :=
  r.installed = r.tickers ∧
  (r.tickers.map Prod.fst).Nodup ∧
  (r.tickers.map Prod.snd).Nodup ∧
  ∀ p ∈ r.tickers, p.2 < r.fresh

instance {α β : Type} (r : Runtime α β) : Decidable (TickerWF r) := by
  unfold TickerWF; infer_instance

/-- An external call sequence against the scheduler. -/
inductive TickerOp where
  | ensure (name : String)
  | cleanup (name : String)

/-- Apply one scheduler call. -/
def applyTickerOp {α β : Type} (r : Runtime α β) : TickerOp → Runtime α β
  | TickerOp.ensure n => ensureTicker r n
  | TickerOp.cleanup n => cleanupTicker r n

/-- Run a sequence of scheduler calls. -/
def runTickerOps {α β : Type} (r : Runtime α β) (ops : List TickerOp) : Runtime α β :=
  ops.foldl applyTickerOp r

/- ------------------------------------------------------------------ -/
/- scripts/effects/tokenOscillationFx.js (world/local baseline        -/
/- version) — per-token oscillation.                                  -/
/- ------------------------------------------------------------------ -/

namespace Osc

/-- Payload fields of `fx.tokenOsc.start` / `.update` / `.stop`. -/
structure OscMsg where
  tokenIds : List String := []
  rollDeg : Option ℚ := none
  bobPx : Option ℚ := none
  swayPx : Option ℚ := none
  freqHz : Option ℚ := none
  noise : Option ℚ := none
  randomPhase : Option Bool := none

/-- Output of `normaliseParams`. -/
structure OscParams where
  rollRad : ℚ
  bobPx : ℚ
  swayPx : ℚ
  freqHz : ℚ
  noise : ℚ
  randomPhase : Bool
deriving DecidableEq

/-- `normaliseParams(msg)`: defaults, `freqHz = Math.max(0.01, freqHz)`,
`noise = clamp(noise, 0, 0.5)`, `rollRad = degToRad(rollDeg)`. -/
def normaliseParams (env : TrigEnv) (msg : OscMsg) : OscParams :=
  { rollRad := degToRad env (msg.rollDeg.getD 3)
    bobPx := msg.bobPx.getD 2
    swayPx := msg.swayPx.getD 1
    freqHz := max (1 / 100) (msg.freqHz.getD (7 / 10))
    noise := clamp (msg.noise.getD 0) 0 (1 / 2)
    randomPhase := msg.randomPhase.getD true }

/-- `asTokenIds(value)`: keep non-empty strings. -/
def asTokenIds (value : List String) : List String :=
  value.filter (fun v => !v.isEmpty)

/-- One step of the FNV-1a loop: `h ^= code; h = Math.imul(h, 16777619)`,
on the 32-bit unsigned bit pattern. -/
def fnv1a32Step (h code : Nat) : Nat := ((h ^^^ code) * 16777619) % (2 ^ 32)

/-- FNV-1a 32-bit hash of a sequence of character codes, starting from the
offset basis `0x811c9dc5 = 2166136261`. -/
def fnv1a32 (codes : List Nat) : Nat := codes.foldl fnv1a32Step 2166136261

/-- `str.charCodeAt(i)` for each position (code units; identical to the
character code for BMP strings such as ids). -/
def charCodes (s : String) : List Nat := s.data.map Char.toNat

/-- `hashStringToUnit(str)`: FNV-1a 32-bit hash mapped to `[0,1)` by
`(h >>> 0) / 2**32`. -/
def hashStringToUnit (s : String) : ℚ := (fnv1a32 (charCodes s) : ℚ) / (2 ^ 32 : ℚ)

/-- `noise1(tokenId, tSeconds)`: deterministic pseudo-noise, a weighted sum
of three sines at frequencies 17/29/41 with hash-derived phase offsets,
normalised by the weight sum `1.9` and clamped to `[-1, 1]`. -/
def noise1 (env : TrigEnv) (tokenId : String) (tSeconds : ℚ) : ℚ :=
  let seed := hashStringToUnit tokenId
  let a := env.sin (tSeconds * 17 + seed * (2 * env.pi))
  let b := env.sin (tSeconds * 29 + seed * (4 * env.pi))
  let c := env.sin (tSeconds * 41 + seed * (6 * env.pi))
  clamp ((1 * a + (3 / 5) * b + (3 / 10) * c) / (19 / 10)) (-1) 1

/-- `pickPhase(tokenId, randomPhase)`: hash-derived stable phase in
`[0, 2π)`, or `0` when `randomPhase` is false. -/
def pickPhase (env : TrigEnv) (tokenId : String) (randomPhase : Bool) : ℚ :=
  if randomPhase then hashStringToUnit tokenId * 2 * env.pi else 0

/-- Baseline coordinate mode: `local` (target parented to the token, local
position stored) or `world` (target shares the token's coordinate space,
the delta to `token.x/y` is stored). -/
inductive BaseMode where
  | localMode (localX localY : ℚ)
  | worldMode (dx dy : ℚ)
deriving DecidableEq

/-- The baseline descriptor returned by `snapshotTargetBase`. -/
structure Base where
  mode : BaseMode
  rotation : ℚ
  scaleX : ℚ
  scaleY : ℚ
deriving DecidableEq

/-- The render target (`token.mesh` / `token.icon`): position, rotation,
scale. -/
structure Target where
  x : ℚ
  y : ℚ
  rotation : ℚ
  scaleX : ℚ
  scaleY : ℚ
deriving DecidableEq

/-- A token together with its render target: `token.x/y` is the
authoritative document-driven position (owned by the host, e.g. during a
drag); `parentIsToken` is the `target.parent === token` test. -/
structure TokenView where
  tokenX : ℚ
  tokenY : ℚ
  target : Target
  parentIsToken : Bool
deriving DecidableEq

/-- `snapshotTargetBase(token, target)`. -/
def snapshotTargetBase (tv : TokenView) : Base :=
  if tv.parentIsToken then
    { mode := BaseMode.localMode tv.target.x tv.target.y
      rotation := tv.target.rotation
      scaleX := tv.target.scaleX
      scaleY := tv.target.scaleY }
  else
    { mode := BaseMode.worldMode (tv.target.x - tv.tokenX) (tv.target.y - tv.tokenY)
      rotation := tv.target.rotation
      scaleX := tv.target.scaleX
      scaleY := tv.target.scaleY }

/-- `restoreTargetBase(token, target, base)`: local mode writes the stored
local position; world mode re-anchors to the token's current `x/y` plus the
stored delta. Rotation and scale restore directly. `token.x/y` is never
written. -/
def restoreTargetBase (tv : TokenView) (base : Base) : TokenView :=
  let pos : ℚ × ℚ :=
    match base.mode with
    | BaseMode.localMode lx ly => (lx, ly)
    | BaseMode.worldMode dx dy => (tv.tokenX + dx, tv.tokenY + dy)
  { tv with target := { x := pos.1, y := pos.2, rotation := base.rotation,
                        scaleX := base.scaleX, scaleY := base.scaleY } }

/-- Per-token effect state (`fxMap` entry). -/
structure OscState where
  tokenId : String
  base : Base
  params : OscParams
  phase : ℚ
  t : ℚ
deriving DecidableEq

/-- The sinusoid and jitter components computed each tick. -/
structure OscOffsets where
  sway : ℚ
  bob : ℚ
  roll : ℚ
  jx : ℚ
  jy : ℚ
  jr : ℚ
deriving DecidableEq

/-- The per-tick oscillation maths: `w = 2π·freqHz`, `s = sin(w·t+phase)`,
`c = cos(w·t+phase)`, jitter `n = noise > 0 ? noise1(id,t)·noise : 0`
projected by `0.8 / 0.6 / 0.15`. -/
def oscOffsets (env : TrigEnv) (p : OscParams) (phase : ℚ) (tokenId : String)
    (t : ℚ) : OscOffsets :=
  let w := 2 * env.pi * p.freqHz
  let s := env.sin (w * t + phase)
  let c := env.cos (w * t + phase)
  let n := if 0 < p.noise then noise1 env tokenId t * p.noise else 0
  { sway := p.swayPx * s, bob := p.bobPx * c, roll := p.rollRad * s
    jx := n * (4 / 5), jy := n * (3 / 5), jr := n * (3 / 20) }

/-- The writes performed on the render target each tick: local mode offsets
the cached local baseline, world mode anchors to the token's current `x/y`
plus the stored delta; rotation and scale come from the baseline. The
token's own position is untouched. -/
def applyOscToTarget (tv : TokenView) (base : Base) (off : OscOffsets) : TokenView :=
  let pos : ℚ × ℚ :=
    match base.mode with
    | BaseMode.localMode lx ly => (lx + off.sway + off.jx, ly + off.bob + off.jy)
    | BaseMode.worldMode dx dy =>
        (tv.tokenX + dx + off.sway + off.jx, tv.tokenY + dy + off.bob + off.jy)
  { tv with target := { x := pos.1, y := pos.2
                        rotation := base.rotation + off.roll + off.jr
                        scaleX := base.scaleX, scaleY := base.scaleY } }

/-- The per-token body of `tick`: `dt = Math.max(0, deltaMS) / 1000`,
`state.t += dt`, then apply the offsets. -/
def tickTarget (env : TrigEnv) (tv : TokenView) (st : OscState) (deltaMS : ℚ) :
    OscState × TokenView :=
  let t2 := st.t + max 0 deltaMS / 1000
  let off := oscOffsets env st.params st.phase st.tokenId t2
  ({ st with t := t2 }, applyOscToTarget tv st.base off)

/-- The scene visible to the oscillation handlers: `canvas.tokens`
(id → token/target) and the per-effect `fxMap` (id → state). -/
structure Scene where
  canvas : List (String × TokenView)
  fxMap : List (String × OscState)

/-- The body of `onStart`'s per-token loop: skip missing tokens; an existing
entry gets new params and phase but keeps its baseline; otherwise snapshot
the baseline once and insert a fresh state with `t = 0`. -/
def onStartOne (env : TrigEnv) (params : OscParams) (sc : Scene)
    (tokenId : String) : Scene :=
  match lookupKey sc.canvas tokenId with
  | none => sc
  | some tv =>
      match lookupKey sc.fxMap tokenId with
      | some st =>
          let st2 : OscState :=
            { st with params := params
                      phase := pickPhase env tokenId params.randomPhase }
          { sc with fxMap := setKey sc.fxMap tokenId st2 }
      | none =>
          let st0 : OscState :=
            { tokenId := tokenId
              base := snapshotTargetBase tv
              params := params
              phase := pickPhase env tokenId params.randomPhase
              t := 0 }
          { sc with fxMap := sc.fxMap ++ [(tokenId, st0)] }

/-- `onStart(runtime, msg)` at scene level (the `ensureTicker` call is
modelled separately by the scheduler embedding). -/
def onStart (env : TrigEnv) (msg : OscMsg) (sc : Scene) : Scene :=
  let ids := asTokenIds msg.tokenIds
  if ids = [] then sc
  else (asTokenIds msg.tokenIds).foldl (onStartOne env (normaliseParams env msg)) sc

/-- The body of `tick`'s per-state loop: skip states whose token vanished,
otherwise advance the state and write the target. -/
def tickOne (env : TrigEnv) (deltaMS : ℚ) (sc : Scene) (tokenId : String) : Scene :=
  match lookupKey sc.fxMap tokenId with
  | none => sc
  | some st =>
      match lookupKey sc.canvas tokenId with
      | none => sc
      | some tv =>
          let out := tickTarget env tv st deltaMS
          { canvas := setKey sc.canvas tokenId out.2
            fxMap := setKey sc.fxMap tokenId out.1 }

/-- `tick(runtime, deltaMS)` at scene level. -/
def tick (env : TrigEnv) (sc : Scene) (deltaMS : ℚ) : Scene :=
  if sc.fxMap = [] then sc
  else (sc.fxMap.map Prod.fst).foldl (tickOne env deltaMS) sc

/-- The body of `onStop`'s per-token loop: restore the baseline when the
token still exists, then delete the entry. -/
def onStopOne (sc : Scene) (tokenId : String) : Scene :=
  match lookupKey sc.fxMap tokenId with
  | none => sc
  | some st =>
      let sc2 :=
        match lookupKey sc.canvas tokenId with
        | none => sc
        | some tv =>
            { sc with canvas := setKey sc.canvas tokenId (restoreTargetBase tv st.base) }
      { sc2 with fxMap := eraseKey sc2.fxMap tokenId }

/-- `onStop(runtime, msg)` at scene level. -/
def onStop (msg : OscMsg) (sc : Scene) : Scene :=
  let ids := asTokenIds msg.tokenIds
  if ids = [] then sc else ids.foldl onStopOne sc

end Osc

/- ------------------------------------------------------------------ -/
/- scripts/effects/screenShakeFx.js — screen shake.                   -/
/- ------------------------------------------------------------------ -/

namespace Shake

/-- Payload fields of `fx.screenShake.start`. -/
structure ShakeMsg where
  intensityPx : Option ℚ := none
  durationMs : Option ℚ := none
  freqHz : Option ℚ := none

/-- Output of `normaliseParams`. -/
structure ShakeParams where
  intensityPx : ℚ
  durationMs : ℚ
  freqHz : ℚ
deriving DecidableEq

/-- `normaliseParams(msg)`: duration `0` is kept as the indefinite sentinel,
any other value is clamped to `[1, 60000]`; intensity is capped at `6` for
indefinite shakes and `500` otherwise; frequency clamps to `[0.1, 120]`. -/
def normaliseParams (msg : ShakeMsg) : ShakeParams :=
  let intensityRaw := msg.intensityPx.getD 12
  let durationMsRaw := msg.durationMs.getD 600
  let durationMs := if durationMsRaw = 0 then 0 else clamp durationMsRaw 1 60000
  let freqHzRaw := msg.freqHz.getD 24
  let intensityCap : ℚ := if durationMs = 0 then 6 else 500
  { intensityPx := clamp intensityRaw 0 intensityCap
    durationMs := durationMs
    freqHz := clamp freqHzRaw (1 / 10) 120 }

/-- The PIXI stage position (`canvas.app.stage.x/y`). -/
structure Stage where
  x : ℚ
  y : ℚ
deriving DecidableEq

/-- The singleton shake state (`runtime.screenFx.get("screenShake")`). -/
structure ShakeState where
  baseX : ℚ
  baseY : ℚ
  params : ShakeParams
  elapsedMs : ℚ
deriving DecidableEq

/-- The world visible to the shake handlers: the stage plus the optional
singleton state. -/
structure ShakeWorld where
  stage : Stage
  state : Option ShakeState
deriving DecidableEq

/-- `onStart(runtime, msg)`: keep the existing baseline when already
shaking, otherwise snapshot the stage; state is replaced wholesale with
`elapsedMs = 0`. -/
def onStart (w : ShakeWorld) (msg : ShakeMsg) : ShakeWorld :=
  let params := normaliseParams msg
  let base : ℚ × ℚ :=
    match w.state with
    | some st => (st.baseX, st.baseY)
    | none => (w.stage.x, w.stage.y)
  { w with state := some { baseX := base.1, baseY := base.2
                           params := params, elapsedMs := 0 } }

/-- `onStop(runtime)`: restore the stage from the baseline when a state
exists, then clear the state. -/
def onStop (w : ShakeWorld) : ShakeWorld :=
  let stage :=
    match w.state with
    | some st => ({ x := st.baseX, y := st.baseY } : Stage)
    | none => w.stage
  { stage := stage, state := none }

/-- `tick(runtime, deltaMS)`: accumulate `Math.max(0, deltaMS)`, apply a
quadratic ease-out envelope for finite durations (constant amplitude when
indefinite), write the stage as baseline plus two phase-shifted sines, and
auto-stop once `elapsedMs >= durationMs` for finite durations. -/
def tick (env : TrigEnv) (w : ShakeWorld) (deltaMS : ℚ) : ShakeWorld :=
  match w.state with
  | none => w
  | some st0 =>
      let st := { st0 with elapsedMs := st0.elapsedMs + max 0 deltaMS }
      let eased :=
        if st.params.durationMs = 0 then 1
        else 1 - easeOutQuad (clamp (st.elapsedMs / st.params.durationMs) 0 1)
      let timeSeconds := st.elapsedMs / 1000
      let w0 := 2 * env.pi * st.params.freqHz
      let sx := env.sin (w0 * timeSeconds)
      let sy := env.sin (w0 * timeSeconds + env.pi / 2)
      let amp := st.params.intensityPx * eased
      let w2 : ShakeWorld :=
        { stage := { x := st.baseX + sx * amp, y := st.baseY + sy * amp }
          state := some st }
      if st.params.durationMs ≠ 0 ∧ st.params.durationMs ≤ st.elapsedMs
      then onStop w2 else w2

end Shake

/- ------------------------------------------------------------------ -/
/- scripts/effects/screenPulseFx.js — full-screen colour pulse.       -/
/- ------------------------------------------------------------------ -/

namespace Pulse

/-- Payload fields of `fx.screenPulse.start`. -/
structure PulseMsg where
  colour : Option String := none
  durationMs : Option ℚ := none
  freqHz : Option ℚ := none
  maxAlpha : Option ℚ := none
  minAlpha : Option ℚ := none
  shape : Option String := none
  blendMode : Option String := none
  ease : Option String := none

/-- Output of `normaliseParams`. -/
structure PulseParams where
  colour : String
  durationMs : ℚ
  freqHz : ℚ
  maxAlpha : ℚ
  minAlpha : ℚ
  shape : String
  blendMode : String
  ease : String
deriving DecidableEq

/-- `normaliseParams(msg)`: duration `0` stays the indefinite sentinel, any
other value clamps to `[1, 60000]`; `minAlpha`/`maxAlpha` are clamped to
`[0,1]` independently (no reordering here — the tick reorders at use). -/
def normaliseParams (msg : PulseMsg) : PulseParams :=
  let durationMsRaw := msg.durationMs.getD 1500
  { colour := (msg.colour.map String.trim).getD "#ff0000"
    durationMs := if durationMsRaw = 0 then 0 else clamp durationMsRaw 1 60000
    freqHz := clamp (msg.freqHz.getD 2) (1 / 10) 30
    maxAlpha := clamp (msg.maxAlpha.getD (7 / 20)) 0 1
    minAlpha := clamp (msg.minAlpha.getD 0) 0 1
    shape := if msg.shape = some "triangle" then "triangle" else "sine"
    blendMode := (msg.blendMode.map (fun s => s.trim.toUpper)).getD "SCREEN"
    ease := (msg.ease.map (fun s => s.trim.toLower)).getD "inout" }

/-- `envelope(easeName, t01)` from screenPulseFx: folds the clamped time
into a triangle `tri = 1 - |2t - 1|` (zero at both endpoints, one at the
midpoint) and then eases that triangle. -/
def envelope (easeName : String) (t01 : ℚ) : ℚ :=
  let t := clamp t01 0 1
  if easeName = "linear" then 1 - |2 * t - 1|
  else if easeName = "in" then
    let tri := 1 - |2 * t - 1|
    clamp (tri * tri) 0 1
  else if easeName = "out" then
    let tri := 1 - |2 * t - 1|
    easeOutQuad tri
  else
    let tri := 1 - |2 * t - 1|
    let half := if tri ≤ 1 / 2 then tri / (1 / 2) else 1 - (tri - 1 / 2) / (1 / 2)
    1 - (1 - half) * (1 - half)

/-- `wave(shape, phase01)`: period-1 waveform on the fractional phase. -/
def wave (env : TrigEnv) (shape : String) (phase01 : ℚ) : ℚ :=
  let p := Int.fract phase01
  if shape = "triangle" then 1 - |2 * p - 1|
  else (env.sin (2 * env.pi * p) + 1) / 2

/-- The oscillation alpha of the tick: the min/max pair is reordered at use
(`Math.min` / `Math.max`) before interpolating by the wave value. -/
def oscAlpha (p : PulseParams) (wv : ℚ) : ℚ :=
  let minA := min p.minAlpha p.maxAlpha
  let maxA := max p.minAlpha p.maxAlpha
  minA + (maxA - minA) * wv

/-- The overlay alpha written by one tick at accumulated time `elapsedMs`. -/
def tickAlpha (env : TrigEnv) (p : PulseParams) (elapsedMs : ℚ) : ℚ :=
  let t01 := if p.durationMs = 0 then 0 else clamp (elapsedMs / p.durationMs) 0 1
  let env1 := if p.durationMs = 0 then 1 else envelope p.ease t01
  let wv := wave env p.shape (elapsedMs / 1000 * p.freqHz)
  clamp (oscAlpha p wv * env1) 0 1

end Pulse

/- ------------------------------------------------------------------ -/
/- screenChromAbFx.js — chromatic aberration.                         -/
/- ------------------------------------------------------------------ -/

namespace ChromAb

/-- Payload fields of `fx.chromAb.start`. -/
structure ChromAbMsg where
  amountPx : Option ℚ := none
  angleDeg : Option ℚ := none
  durationMs : Option ℚ := none
  freqHz : Option ℚ := none
  minAmountPx : Option ℚ := none
  maxAmountPx : Option ℚ := none
  rotateDegPerSec : Option ℚ := none
  shape : Option String := none
  ease : Option String := none

/-- Output of `normaliseParams`. -/
structure ChromAbParams where
  amountPx : ℚ
  angleDeg : ℚ
  durationMs : ℚ
  freqHz : ℚ
  minAmountPx : ℚ
  maxAmountPx : ℚ
  rotateDegPerSec : ℚ
  shape : String
  ease : String
deriving DecidableEq

/-- `normaliseParams(msg)`: `durationMs = clamp(durationMs, 0, 600000)` —
no exact-zero sentinel branch; the min/max amount pair IS reordered here
(`Math.min` / `Math.max` before clamping to `[0, 30]`). -/
def normaliseParams (msg : ChromAbMsg) : ChromAbParams :=
  let amountPx := msg.amountPx.getD (6 / 5)
  let minAmountPx := msg.minAmountPx.getD amountPx
  let maxAmountPx := msg.maxAmountPx.getD amountPx
  let shapeRaw := msg.shape.getD "sine"
  let easeRaw := msg.ease.getD "inOut"
  { amountPx := clamp amountPx 0 30
    angleDeg := msg.angleDeg.getD 0
    durationMs := clamp (msg.durationMs.getD 0) 0 600000
    freqHz := clamp (msg.freqHz.getD 0) 0 30
    minAmountPx := clamp (min minAmountPx maxAmountPx) 0 30
    maxAmountPx := clamp (max minAmountPx maxAmountPx) 0 30
    rotateDegPerSec := clamp (msg.rotateDegPerSec.getD 0) (-720) 720
    shape := if shapeRaw = "triangle" then "triangle" else "sine"
    ease := if easeRaw = "linear" ∨ easeRaw = "in" ∨ easeRaw = "out" ∨ easeRaw = "inOut"
            then easeRaw else "inOut" }

/-- `triangle01(phase01) = 1 - |2·frac(phase01) - 1|`. -/
def triangle01 (phase01 : ℚ) : ℚ := 1 - |2 * Int.fract phase01 - 1|

/-- `wave01(shape, tSeconds, freqHz)`: `1` when static, else a `[0,1]`
waveform of the running phase. -/
def wave01 (env : TrigEnv) (shape : String) (tSeconds freqHz : ℚ) : ℚ :=
  if freqHz ≤ 0 then 1
  else if shape = "triangle" then triangle01 (tSeconds * freqHz)
  else 1 / 2 + 1 / 2 * env.sin (2 * env.pi * (tSeconds * freqHz))

/-- `easeEnvelope(ease, t01)` from screenChromAbFx: `linear` is the constant
`1`; the others ramp `0 → 1` (`in` = t², `out` = 1-(1-t)², default
smoothstep). -/
def easeEnvelope (ease : String) (t01 : ℚ) : ℚ :=
  let t := clamp t01 0 1
  if ease = "linear" then 1
  else if ease = "in" then t * t
  else if ease = "out" then 1 - (1 - t) * (1 - t)
  else t * t * (3 - 2 * t)

/-- The singleton chromatic-aberration state. -/
structure ChromAbState where
  params : ChromAbParams
  tSeconds : ℚ
  elapsedMs : ℚ
deriving DecidableEq

/-- The world visible to the tick: the optional state plus the filter
uniforms the tick drives (separation amount and direction angle). -/
structure ChromAbWorld where
  state : Option ChromAbState
  amount : ℚ
  angle : ℚ
deriving DecidableEq

/-- `tick(runtime, deltaMS)`: accumulate clamped deltas, compute the eased
envelope (only when `durationMs > 0`), animate the amount between the
reordered min/max by the wave, rotate the angle, and auto-stop once
`elapsedMs >= durationMs` for positive durations. -/
def tick (env : TrigEnv) (w : ChromAbWorld) (deltaMS : ℚ) : ChromAbWorld :=
  match w.state with
  | none => w
  | some st0 =>
      let st := { st0 with tSeconds := st0.tSeconds + max 0 deltaMS / 1000
                           elapsedMs := st0.elapsedMs + max 0 deltaMS }
      let p := st.params
      let env1 := if 0 < p.durationMs then easeEnvelope p.ease (st.elapsedMs / p.durationMs) else 1
      let amount0 :=
        if 0 < p.freqHz then
          p.minAmountPx + (p.maxAmountPx - p.minAmountPx) * wave01 env p.shape st.tSeconds p.freqHz
        else p.amountPx
      let w2 : ChromAbWorld :=
        { state := some st
          amount := amount0 * env1
          angle := p.angleDeg + p.rotateDegPerSec * st.tSeconds }
      if 0 < p.durationMs ∧ p.durationMs ≤ st.elapsedMs
      then { w2 with state := none } else w2

end ChromAb

/- ------------------------------------------------------------------ -/
/- screenSmearFx.js — render-feedback motion smear.                   -/
/- ------------------------------------------------------------------ -/

namespace Smear

/-- screenSmearFx's local `clamp(n, lo, hi) = Math.max(lo, Math.min(hi, n))`
(non-finite inputs collapse to `lo`; finite inputs modelled). -/
def sclamp (v lo hi : ℚ) : ℚ := max lo (min hi v)

/-- Payload fields of `fx.screenSmear.start`. -/
structure SmearMsg where
  durationMs : Option ℚ := none
  strength : Option ℚ := none
  persistence : Option ℚ := none
  freqHz : Option ℚ := none
  minStrength : Option ℚ := none
  maxStrength : Option ℚ := none
  jitterPx : Option ℚ := none
  maxStepPx : Option ℚ := none
  ease : Option String := none
  cameraWeighted : Option Bool := none

/-- Output of `normaliseParams`. -/
structure SmearParams where
  durationMs : ℚ
  strength : ℚ
  persistence : ℚ
  freqHz : ℚ
  minStrength : ℚ
  maxStrength : ℚ
  jitterPx : ℚ
  maxStepPx : ℚ
  ease : String
  cameraWeighted : Bool
deriving DecidableEq

/-- `normaliseParams(msg)`: duration `0` stays the indefinite sentinel, any
other value clamps to `[1, 600000]`; persistence is hard-capped at `0.999`;
`minStrength`/`maxStrength` are clamped to `[0,1]` independently (no
reordering here — the tick reorders at use). -/
def normaliseParams (msg : SmearMsg) : SmearParams :=
  let durationMsRaw := msg.durationMs.getD 0
  { durationMs := if durationMsRaw = 0 then 0 else sclamp durationMsRaw 1 600000
    strength := sclamp (msg.strength.getD (17 / 20)) 0 1
    persistence := sclamp (msg.persistence.getD (17 / 20)) 0 (999 / 1000)
    freqHz := sclamp (msg.freqHz.getD 0) 0 60
    minStrength := sclamp (msg.minStrength.getD 0) 0 1
    maxStrength := sclamp (msg.maxStrength.getD 1) 0 1
    jitterPx := sclamp (msg.jitterPx.getD 1) 0 200
    maxStepPx := sclamp (msg.maxStepPx.getD 40) 0 500
    ease := msg.ease.getD "inOut"
    cameraWeighted := msg.cameraWeighted.getD true }

/-- `easeValue(kind, t01)` from screenSmearFx: `in` = t², `out` = 1-(1-t)²,
`linear` = t, default smoothstep `t²(3-2t)`, on the clamped time. -/
def easeValue (kind : String) (t01 : ℚ) : ℚ :=
  let t := sclamp t01 0 1
  if kind = "in" then t * t
  else if kind = "out" then 1 - (1 - t) * (1 - t)
  else if kind = "linear" then t
  else t * t * (3 - 2 * t)

/-- The tick's strength oscillation: when `freqHz > 0` the min/max pair is
reordered at use and interpolated by a sine wave of the elapsed time;
otherwise the base strength is used. -/
def strengthNow (env : TrigEnv) (p : SmearParams) (elapsedSec : ℚ) : ℚ :=
  if 0 < p.freqHz then
    let w01 := (env.sin (elapsedSec * p.freqHz * env.pi * 2) + 1) * (1 / 2)
    let a := min p.minStrength p.maxStrength
    let b := max p.minStrength p.maxStrength
    a + (b - a) * w01
  else p.strength

/-- The per-tick displacement of the displayed feedback sprite: the camera
delta contribution plus the jitter contribution, clamped to `maxStepPx`.
Crucially, the jitter consumes two fresh `Math.random()` draws `r1`, `r2`
(one per axis), which appear here as explicit extra inputs. -/
def tickOffset (p : SmearParams) (dCamX dCamY r1 r2 : ℚ) : ℚ × ℚ :=
  let dx0 := if p.cameraWeighted then 0 + -dCamX else 0
  let dy0 := if p.cameraWeighted then 0 + -dCamY else 0
  let dx1 := if 0 < p.jitterPx then dx0 + (r1 * 2 - 1) * p.jitterPx else dx0
  let dy1 := if 0 < p.jitterPx then dy0 + (r2 * 2 - 1) * p.jitterPx else dy0
  (sclamp dx1 (-p.maxStepPx) p.maxStepPx, sclamp dy1 (-p.maxStepPx) p.maxStepPx)

end Smear

/- ------------------------------------------------------------------ -/
/- fxbusResetFx.js — global reset controller.                         -/
/- ------------------------------------------------------------------ -/

namespace Reset

/-- A registered action handler, as observed by the reset controller: it
receives the tokenIds of the payload and the runtime, and returns the
runtime it left behind together with whether it threw. (The handler map
lives outside `Runtime` because Lean structures cannot mention functions
over themselves; the JS `runtime.handlers` map is passed alongside.) -/
def ResetHandler (α β : Type) : Type :=
  List String → Runtime α β → Runtime α β × Bool

/-- JS `Set.add` insertion-order semantics: keep the first occurrence. -/
def insertUnique (acc : List String) (x : String) : List String :=
  if x ∈ acc then acc else acc ++ [x]

/-- `collectAllTokenIds(runtime)`: every non-empty token id appearing in any
per-token effect map, deduplicated. -/
def collectAllTokenIds {α β : Type} (r : Runtime α β) : List String :=
  (((r.tokenFx.map (fun p => p.2.map Prod.fst)).flatten).filter
    (fun s => !s.isEmpty)).foldl insertUnique []

/-- `hasHandler(runtime, action)`. -/
def hasHandler {α β : Type} (handlers : List (String × ResetHandler α β))
    (action : String) : Bool :=
  (lookupKey handlers action).isSome

/-- `safeCallHandler(runtime, action, payload)`: missing handlers only warn;
a throwing handler has its error logged and swallowed — the runtime state it
left behind is kept either way. -/
def safeCallHandler {α β : Type} (handlers : List (String × ResetHandler α β))
    (r : Runtime α β) (action : String) (ids : List String) : Runtime α β :=
  match lookupKey handlers action with
  | none => { r with log := r.log ++ ["reset: missing handler " ++ action] }
  | some fn =>
      let out := fn ids r
      if out.2 then { out.1 with log := out.1.log ++ ["reset: handler threw " ++ action] }
      else out.1

/-- `stopIfPresent(runtime, action)`. -/
def stopIfPresent {α β : Type} (handlers : List (String × ResetHandler α β))
    (r : Runtime α β) (action : String) : Runtime α β :=
  if hasHandler handlers action then safeCallHandler handlers r action [] else r

/-- `backstopTickerCleanup(runtime)`: snapshot the registered effect names
and run `cleanupTicker` for each. -/
def backstopTickerCleanup {α β : Type} (r : Runtime α β) : Runtime α β :=
  (r.tickers.map Prod.fst).foldl cleanupTicker r

/-- The screen-effect stop action ids iterated by `onReset`. -/
def screenStopActions : List String :=
  ["fx.screenShake.stop", "fx.screenPulse.stop", "fx.screenVignette.stop",
   "fx.chromAb.stop", "fx.noise.stop", "fx.screenBlur.stop",
   "fx.screenSmear.stop", "fx.screenStreak.stop"]

/-- Step 1 of `onReset`: stop token effects with all collected token ids,
preferring the canonical stop action id and falling back to the legacy id. -/
def tokenStopPhase {α β : Type} (handlers : List (String × ResetHandler α β))
    (r : Runtime α β) : Runtime α β :=
  let tokenIds := collectAllTokenIds r
  if tokenIds = [] then r
  else if hasHandler handlers "fx.tokenOsc.stop" then
    safeCallHandler handlers r "fx.tokenOsc.stop" tokenIds
  else if hasHandler handlers "tokenOscStop" then
    safeCallHandler handlers r "tokenOscStop" tokenIds
  else r

/-- Step 2 of `onReset`: call each screen-effect stop action with error
isolation (one failing stop does not block the others). -/
def screenStopPhase {α β : Type} (handlers : List (String × ResetHandler α β))
    (r : Runtime α β) : Runtime α β :=
  screenStopActions.foldl (stopIfPresent handlers) r

/-- `onReset(runtime)`: stop token effects, stop each screen effect with
error isolation, then backstop-clean every remaining ticker and force-clear
both state stores. -/
def onReset {α β : Type} (handlers : List (String × ResetHandler α β))
    (r : Runtime α β) : Runtime α β :=
  let r3 := backstopTickerCleanup (screenStopPhase handlers (tokenStopPhase handlers r))
  { r3 with tokenFx := [], screenFx := [] }

end Reset

/-- A concrete host-trig instantiation (used to evaluate the embedding at
specific inputs: a host whose sine and cosine are identically zero). -/
def zeroTrig : TrigEnv := { sin := fun _ => 0, cos := fun _ => 0, pi := 0 }

/-- A concrete world-mode oscillation state (baseline delta `(3, 4)`). -/
def demoWorldState : Osc.OscState :=
  { tokenId := "T1"
    base := { mode := Osc.BaseMode.worldMode 3 4, rotation := 0, scaleX := 1, scaleY := 1 }
    params := Osc.normaliseParams zeroTrig {}
    phase := 0
    t := 0 }

/-- A field-by-field copy of `demoWorldState`, written independently. -/
def demoWorldStateCopy : Osc.OscState :=
  { tokenId := "T1"
    base := demoWorldState.base
    params := demoWorldState.params
    phase := 0
    t := 0 }

/-- A concrete token view whose render target lives in world space. -/
def demoWorldView : Osc.TokenView :=
  { tokenX := 50, tokenY := 60
    target := { x := 53, y := 64, rotation := 0, scaleX := 1, scaleY := 1 }
    parentIsToken := false }

/-- A concrete shake state with accumulated elapsed time `5` ms. -/
def demoShakeState : Shake.ShakeState :=
  { baseX := 0, baseY := 0, params := Shake.normaliseParams {}, elapsedMs := 5 }

/-- The same shake state after a tick with frame delta `-8` ms. -/
def demoShakeStateAfter : Shake.ShakeState :=
  { baseX := 0, baseY := 0, params := Shake.normaliseParams {}, elapsedMs := 5 + max 0 (-8) }

/-- A concrete runtime with three active effects (one per-target, two
screen-wide) and three installed tickers, used to evaluate the reset path. -/
def demoResetRuntime : Runtime Unit Unit :=
  { tickers := [("tokenOscillation", 0), ("screenShake", 1), ("screenPulse", 2)]
    installed := [("tokenOscillation", 0), ("screenShake", 1), ("screenPulse", 2)]
    fresh := 3
    log := []
    tokenFx := [("tokenOscillation", [("T1", ())])]
    screenFx := [("screenShake", ()), ("screenPulse", ())] }

/-- Concrete stop handlers for the reset evaluation: the token stop and the
pulse stop behave normally; the shake stop handler throws. -/
def demoResetHandlers : List (String × Reset.ResetHandler Unit Unit) :=
  [("fx.tokenOsc.stop", fun _ s => (cleanupTicker { s with tokenFx := [] } "tokenOscillation", false)),
   ("fx.screenShake.stop", fun _ s => (s, true)),
   ("fx.screenPulse.stop", fun _ s =>
      (cleanupTicker { s with screenFx := eraseKey s.screenFx "screenPulse" } "screenPulse", false))]

/- ================================================================== -/
/- Lemmas and claim theorems.                                         -/
/- ================================================================== -/

theorem lookupKey_eq_none_iff {τ : Type} (l : List (String × τ)) (k : String) :
    lookupKey l k = none ↔ ∀ p ∈ l, p.1 ≠ k := by
  induction l with
  | nil => simp [lookupKey]
  | cons p rest ih =>
      by_cases h : p.1 = k <;> simp [lookupKey, h, ih]

theorem mem_eraseKey_iff {τ : Type} (l : List (String × τ)) (k : String)
    (p : String × τ) : p ∈ eraseKey l k ↔ p ∈ l ∧ p.1 ≠ k := by
  induction l with
  | nil => simp [eraseKey]
  | cons q rest ih =>
      by_cases h : q.1 = k
      · simp only [eraseKey, if_pos h, ih, List.mem_cons]
        constructor
        · rintro ⟨hp, hne⟩; exact ⟨Or.inr hp, hne⟩
        · rintro ⟨rfl | hp, hne⟩
          · exact absurd h hne
          · exact ⟨hp, hne⟩
      · simp only [eraseKey, if_neg h, List.mem_cons, ih]
        constructor
        · rintro (rfl | ⟨hp, hne⟩)
          · exact ⟨Or.inl rfl, h⟩
          · exact ⟨Or.inr hp, hne⟩
        · rintro ⟨rfl | hp, hne⟩
          · exact Or.inl rfl
          · exact Or.inr ⟨hp, hne⟩

theorem eraseKey_sublist {τ : Type} (l : List (String × τ)) (k : String) :
    List.Sublist (eraseKey l k) l := by
  induction l with
  | nil => simp [eraseKey]
  | cons q rest ih =>
      by_cases h : q.1 = k
      · rw [eraseKey, if_pos h]; exact ih.cons q
      · rw [eraseKey, if_neg h]; exact ih.cons₂ q

theorem lookupKey_eraseKey_self {τ : Type} (l : List (String × τ)) (k : String) :
    lookupKey (eraseKey l k) k = none := by
  rw [lookupKey_eq_none_iff]
  intro p hp
  exact ((mem_eraseKey_iff l k p).mp hp).2

theorem lookupKey_mem {τ : Type} {l : List (String × τ)} {k : String} {v : τ}
    (h : lookupKey l k = some v) : (k, v) ∈ l := by
  induction l with
  | nil => simp [lookupKey] at h
  | cons q rest ih =>
      by_cases hq : q.1 = k
      · rw [lookupKey, if_pos hq] at h
        injection h with h
        have hkv : (k, v) = q := by
          obtain ⟨q1, q2⟩ := q
          simp only [Prod.mk.injEq]
          exact ⟨hq.symm, h.symm⟩
        rw [hkv]
        exact List.mem_cons_self q rest
      · rw [lookupKey, if_neg hq] at h
        exact List.mem_cons_of_mem q (ih h)

theorem removeId_of_forall {l : List (String × Nat)} {id : Nat}
    (h : ∀ p ∈ l, p.2 ≠ id) : removeId l id = l := by
  induction l with
  | nil => rfl
  | cons q rest ih =>
      have hq : q.2 ≠ id := h q (List.mem_cons_self q rest)
      rw [removeId, if_neg hq, ih (fun p hp => h p (List.mem_cons_of_mem q hp))]

theorem eraseKey_of_forall {τ : Type} {l : List (String × τ)} {k : String}
    (h : ∀ p ∈ l, p.1 ≠ k) : eraseKey l k = l := by
  induction l with
  | nil => rfl
  | cons q rest ih =>
      have hq : q.1 ≠ k := h q (List.mem_cons_self q rest)
      rw [eraseKey, if_neg hq, ih (fun p hp => h p (List.mem_cons_of_mem q hp))]

theorem nodup_map_head {τ : Type} {σ : Type} {f : String × τ → σ}
    {q : String × τ} {rest : List (String × τ)}
    (h : ((q :: rest).map f).Nodup) : (∀ p ∈ rest, f p ≠ f q) ∧ (rest.map f).Nodup := by
  rw [List.map_cons, List.nodup_cons] at h
  refine ⟨fun p hp hfp => h.1 ?_, h.2⟩
  rw [← hfp]
  exact List.mem_map_of_mem f hp

theorem removeId_eq_eraseKey {l : List (String × Nat)} {k : String} {id : Nat}
    (hkeys : (l.map Prod.fst).Nodup) (hids : (l.map Prod.snd).Nodup)
    (h : lookupKey l k = some id) : removeId l id = eraseKey l k := by
  induction l with
  | nil => simp [lookupKey] at h
  | cons q rest ih =>
      obtain ⟨hk1, hkeys2⟩ := nodup_map_head hkeys
      obtain ⟨hi1, hids2⟩ := nodup_map_head hids
      by_cases hq : q.1 = k
      · rw [lookupKey, if_pos hq] at h
        injection h with h
        rw [removeId, if_pos h, eraseKey, if_pos hq]
        rw [removeId_of_forall (fun p hp => h ▸ hi1 p hp),
            eraseKey_of_forall (fun p hp => hq ▸ hk1 p hp)]
      · rw [lookupKey, if_neg hq] at h
        have hqid : q.2 ≠ id := by
          intro hcontra
          have hmem : (k, id) ∈ rest := lookupKey_mem h
          have : id ∈ rest.map Prod.snd := by
            rw [← show (k, id).2 = id from rfl]
            exact List.mem_map_of_mem Prod.snd hmem
          rw [List.map_cons, List.nodup_cons] at hids
          exact hids.1 (hcontra ▸ this)
        rw [removeId, if_neg hqid, eraseKey, if_neg hq, ih hkeys2 hids2 h]

theorem countKey_eq_zero_iff {τ : Type} (l : List (String × τ)) (k : String) :
    countKey l k = 0 ↔ ∀ p ∈ l, p.1 ≠ k := by
  induction l with
  | nil => simp [countKey]
  | cons q rest ih =>
      by_cases h : q.1 = k <;> simp [countKey, h, ih]

theorem countKey_le_one_of_nodup {τ : Type} {l : List (String × τ)}
    (h : (l.map Prod.fst).Nodup) (k : String) : countKey l k ≤ 1 := by
  induction l with
  | nil => simp [countKey]
  | cons q rest ih =>
      obtain ⟨h1, h2⟩ := nodup_map_head h
      by_cases hq : q.1 = k
      · rw [countKey, if_pos hq]
        have : countKey rest k = 0 :=
          (countKey_eq_zero_iff rest k).mpr (fun p hp => hq ▸ h1 p hp)
        omega
      · rw [countKey, if_neg hq]
        simpa using ih h2

theorem lookupKey_append_singleton {τ : Type} {l : List (String × τ)} {k : String}
    (h : lookupKey l k = none) (v : τ) : lookupKey (l ++ [(k, v)]) k = some v := by
  induction l with
  | nil => simp [lookupKey]
  | cons q rest ih =>
      by_cases hq : q.1 = k
      · rw [lookupKey, if_pos hq] at h; exact absurd h (by simp)
      · rw [lookupKey, if_neg hq] at h
        rw [List.cons_append, lookupKey, if_neg hq]
        exact ih h

theorem TickerWF_initRuntime (α β : Type) : TickerWF (initRuntime α β) := by
  refine ⟨rfl, ?_, ?_, ?_⟩ <;> simp [initRuntime]

theorem TickerWF_ensureTicker {α β : Type} {r : Runtime α β} (h : TickerWF r)
    (name : String) : TickerWF (ensureTicker r name) := by
  obtain ⟨hinst, hkeys, hids, hlt⟩ := h
  unfold ensureTicker
  cases hl : lookupKey r.tickers name with
  | none =>
      dsimp only
      have hnotk : ∀ p ∈ r.tickers, p.1 ≠ name := (lookupKey_eq_none_iff _ _).mp hl
      refine ⟨by rw [hinst], ?_, ?_, ?_⟩
      · simp only [List.map_append, List.map_cons, List.map_nil]
        rw [List.nodup_append]
        refine ⟨hkeys, List.nodup_singleton _, ?_⟩
        intro a ha hb
        simp only [List.mem_singleton] at hb
        obtain ⟨p, hp, rfl⟩ := List.mem_map.mp ha
        exact hnotk p hp hb
      · simp only [List.map_append, List.map_cons, List.map_nil]
        rw [List.nodup_append]
        refine ⟨hids, List.nodup_singleton _, ?_⟩
        intro a ha hb
        simp only [List.mem_singleton] at hb
        obtain ⟨p, hp, rfl⟩ := List.mem_map.mp ha
        exact absurd (hb ▸ hlt p hp) (lt_irrefl _)
      · intro p hp
        rcases List.mem_append.mp hp with hp | hp
        · exact Nat.lt_succ_of_lt (hlt p hp)
        · simp only [List.mem_singleton] at hp
          rw [hp]
          exact Nat.lt_succ_self _
  | some id =>
      have herase : removeId r.installed id = eraseKey r.tickers name := by
        rw [hinst]; exact removeId_eq_eraseKey hkeys hids hl
      have hsubk : ((eraseKey r.tickers name).map Prod.fst).Nodup :=
        ((eraseKey_sublist r.tickers name).map Prod.fst).nodup hkeys
      have hsubi : ((eraseKey r.tickers name).map Prod.snd).Nodup :=
        ((eraseKey_sublist r.tickers name).map Prod.snd).nodup hids
      have hnotk : ∀ p ∈ eraseKey r.tickers name, p.1 ≠ name :=
        (lookupKey_eq_none_iff _ _).mp (lookupKey_eraseKey_self _ _)
      have hltE : ∀ p ∈ eraseKey r.tickers name, p.2 < r.fresh := fun p hp =>
        hlt p ((mem_eraseKey_iff _ _ p).mp hp).1
      dsimp only
      refine ⟨by rw [herase], ?_, ?_, ?_⟩
      · simp only [List.map_append, List.map_cons, List.map_nil]
        rw [List.nodup_append]
        refine ⟨hsubk, List.nodup_singleton _, ?_⟩
        intro a ha hb
        simp only [List.mem_singleton] at hb
        obtain ⟨p, hp, rfl⟩ := List.mem_map.mp ha
        exact hnotk p hp hb
      · simp only [List.map_append, List.map_cons, List.map_nil]
        rw [List.nodup_append]
        refine ⟨hsubi, List.nodup_singleton _, ?_⟩
        intro a ha hb
        simp only [List.mem_singleton] at hb
        obtain ⟨p, hp, rfl⟩ := List.mem_map.mp ha
        exact absurd (hb ▸ hltE p hp) (lt_irrefl _)
      · intro p hp
        rcases List.mem_append.mp hp with hp | hp
        · exact Nat.lt_succ_of_lt (hltE p hp)
        · simp only [List.mem_singleton] at hp
          rw [hp]
          exact Nat.lt_succ_self _

theorem TickerWF_cleanupTicker {α β : Type} {r : Runtime α β} (h : TickerWF r)
    (name : String) : TickerWF (cleanupTicker r name) := by
  obtain ⟨hinst, hkeys, hids, hlt⟩ := h
  unfold cleanupTicker
  cases hl : lookupKey r.tickers name with
  | none => exact ⟨hinst, hkeys, hids, hlt⟩
  | some id =>
      have herase : removeId r.installed id = eraseKey r.tickers name := by
        rw [hinst]; exact removeId_eq_eraseKey hkeys hids hl
      dsimp only
      refine ⟨by rw [herase], ?_, ?_, ?_⟩
      · exact ((eraseKey_sublist r.tickers name).map Prod.fst).nodup hkeys
      · exact ((eraseKey_sublist r.tickers name).map Prod.snd).nodup hids
      · exact fun p hp => hlt p ((mem_eraseKey_iff _ _ p).mp hp).1

theorem TickerWF_runTickerOps {α β : Type} {r : Runtime α β} (h : TickerWF r)
    (ops : List TickerOp) : TickerWF (runTickerOps r ops) := by
  induction ops generalizing r with
  | nil => exact h
  | cons op rest ih =>
      cases op with
      | ensure n => exact ih (TickerWF_ensureTicker h n)
      | cleanup n => exact ih (TickerWF_cleanupTicker h n)

theorem lookupKey_ensureTicker_self {α β : Type} (r : Runtime α β) (name : String) :
    lookupKey (ensureTicker r name).tickers name = some r.fresh := by
  unfold ensureTicker
  cases hl : lookupKey r.tickers name with
  | none => exact lookupKey_append_singleton hl _
  | some id => exact lookupKey_append_singleton (lookupKey_eraseKey_self _ _) _

/-- Claim C3: after any sequence of `ensureTicker` / `cleanupTicker` calls
starting from the pristine runtime (including an `ensureTicker` issued by a
second `start` in quick succession), at most one host-ticker callback is
installed under any effect-type name; and `ensureTicker` removes and
replaces any prior callback registered under the same name — immediately
after a further `ensureTicker` the name maps to the freshly created
callback. -/
theorem c3_no_duplicate_scheduling (ops : List TickerOp) (name : String) :
    countKey (runTickerOps (initRuntime Unit Unit) ops).installed name ≤ 1 ∧
    lookupKey (ensureTicker (runTickerOps (initRuntime Unit Unit) ops) name).tickers name
      = some (runTickerOps (initRuntime Unit Unit) ops).fresh := by
  have hwf : TickerWF (runTickerOps (initRuntime Unit Unit) ops) :=
    TickerWF_runTickerOps (TickerWF_initRuntime Unit Unit) ops
  obtain ⟨hinst, hkeys, _, _⟩ := hwf
  constructor
  · rw [hinst]
    exact countKey_le_one_of_nodup hkeys name
  · exact lookupKey_ensureTicker_self _ name

/-- Claim C4: when the body of an effect's tick callback throws, the
`wrapped` closure built by `ensureTicker` catches the exception (its result
type carries no exception — nothing propagates to the frame loop), appends
a log line, and removes that effect's ticker entry: afterwards the name is
no longer registered and no host-ticker callback for it remains installed. -/
theorem c4_tick_failure_containment {α β : Type}
    (tickFn : Runtime α β → ℚ → Runtime α β × Except String Unit)
    (name : String) (r : Runtime α β) (raw : Option ℚ) (e : String)
    (herr : (tickFn r (raw.getD (1000 / 60))).2 = Except.error e)
    (hwf : TickerWF (tickFn r (raw.getD (1000 / 60))).1) :
    lookupKey (wrappedTick tickFn name r raw).tickers name = none ∧
    countKey (wrappedTick tickFn name r raw).installed name = 0 ∧
    (wrappedTick tickFn name r raw).log =
      (tickFn r (raw.getD (1000 / 60))).1.log ++ [name ++ " tick failed: " ++ e] := by
  obtain ⟨hinst, hkeys, hids, _⟩ := hwf
  unfold wrappedTick
  dsimp only
  rw [herr]
  dsimp only
  set r1 := (tickFn r (raw.getD (1000 / 60))).1 with hr1
  unfold cleanupTicker
  cases hl : lookupKey r1.tickers name with
  | none =>
      dsimp only
      refine ⟨hl, ?_, rfl⟩
      rw [hinst]
      exact (countKey_eq_zero_iff _ _).mpr ((lookupKey_eq_none_iff _ _).mp hl)
  | some id =>
      dsimp only
      refine ⟨lookupKey_eraseKey_self _ _, ?_, rfl⟩
      have herase : removeId r1.installed id = eraseKey r1.tickers name := by
        rw [hinst]; exact removeId_eq_eraseKey hkeys hids hl
      rw [herase]
      exact (countKey_eq_zero_iff _ _).mpr
        ((lookupKey_eq_none_iff _ _).mp (lookupKey_eraseKey_self _ _))

theorem TickerWF_log {α β : Type} {r : Runtime α β} (h : TickerWF r)
    (l : List String) : TickerWF { r with log := l } := h

theorem TickerWF_safeCallHandler {α β : Type}
    {handlers : List (String × Reset.ResetHandler α β)}
    (hpres : ∀ p ∈ handlers, ∀ ids s, TickerWF s → TickerWF (p.2 ids s).1)
    {r : Runtime α β} (hwf : TickerWF r) (action : String) (ids : List String) :
    TickerWF (Reset.safeCallHandler handlers r action ids) := by
  unfold Reset.safeCallHandler
  cases hl : lookupKey handlers action with
  | none => exact TickerWF_log hwf _
  | some fn =>
      dsimp only
      have hfn : TickerWF (fn ids r).1 := hpres (action, fn) (lookupKey_mem hl) ids r hwf
      split
      · exact TickerWF_log hfn _
      · exact hfn

theorem TickerWF_stopIfPresent {α β : Type}
    {handlers : List (String × Reset.ResetHandler α β)}
    (hpres : ∀ p ∈ handlers, ∀ ids s, TickerWF s → TickerWF (p.2 ids s).1)
    {r : Runtime α β} (hwf : TickerWF r) (action : String) :
    TickerWF (Reset.stopIfPresent handlers r action) := by
  unfold Reset.stopIfPresent
  split
  · exact TickerWF_safeCallHandler hpres hwf action []
  · exact hwf

theorem TickerWF_tokenStopPhase {α β : Type}
    {handlers : List (String × Reset.ResetHandler α β)}
    (hpres : ∀ p ∈ handlers, ∀ ids s, TickerWF s → TickerWF (p.2 ids s).1)
    {r : Runtime α β} (hwf : TickerWF r) :
    TickerWF (Reset.tokenStopPhase handlers r) := by
  unfold Reset.tokenStopPhase
  dsimp only
  split
  · exact hwf
  · split
    · exact TickerWF_safeCallHandler hpres hwf _ _
    · split
      · exact TickerWF_safeCallHandler hpres hwf _ _
      · exact hwf

theorem TickerWF_foldStops {α β : Type}
    {handlers : List (String × Reset.ResetHandler α β)}
    (hpres : ∀ p ∈ handlers, ∀ ids s, TickerWF s → TickerWF (p.2 ids s).1)
    (actions : List String) {r : Runtime α β} (hwf : TickerWF r) :
    TickerWF (actions.foldl (Reset.stopIfPresent handlers) r) := by
  induction actions generalizing r with
  | nil => exact hwf
  | cons a rest ih => exact ih (TickerWF_stopIfPresent hpres hwf a)

theorem backstop_aux {α β : Type} (names : List String) (s : Runtime α β)
    (hwf : TickerWF s) (hsub : ∀ p ∈ s.tickers, p.1 ∈ names) :
    (names.foldl cleanupTicker s).tickers = [] ∧
    (names.foldl cleanupTicker s).installed = [] := by
  induction names generalizing s with
  | nil =>
      have ht : s.tickers = [] := by
        cases hs : s.tickers with
        | nil => rfl
        | cons p rest => exact absurd (hsub p (hs ▸ List.mem_cons_self p rest)) (by simp)
      exact ⟨ht, hwf.1.trans ht⟩
  | cons n rest ih =>
      refine ih (cleanupTicker s n) (TickerWF_cleanupTicker hwf n) ?_
      intro p hp
      unfold cleanupTicker at hp
      revert hp
      cases hl : lookupKey s.tickers n with
      | none =>
          intro hp
          have hne : p.1 ≠ n := (lookupKey_eq_none_iff _ _).mp hl p hp
          rcases List.mem_cons.mp (hsub p hp) with h | h
          · exact absurd h hne
          · exact h
      | some id =>
          intro hp
          dsimp only at hp
          obtain ⟨hmem, hne⟩ := (mem_eraseKey_iff _ _ p).mp hp
          rcases List.mem_cons.mp (hsub p hmem) with h | h
          · exact absurd h hne
          · exact h

theorem backstopTickerCleanup_clears {α β : Type} {s : Runtime α β}
    (hwf : TickerWF s) :
    (Reset.backstopTickerCleanup s).tickers = [] ∧
    (Reset.backstopTickerCleanup s).installed = [] :=
  backstop_aux _ s hwf (fun _p hp => List.mem_map_of_mem Prod.fst hp)

/-- Claim C6: after `onReset`, the token-effect and screen-effect state
stores are both empty and zero scheduler entries remain (neither in
`runtime.tickers` nor installed on the host ticker), for any number of
active effects and even when some of the invoked stop handlers throw —
each handler runs under error isolation, and the backstop force-clears
tickers and both stores afterwards. -/
theorem c6_global_reset_backstop {α β : Type}
    (handlers : List (String × Reset.ResetHandler α β)) (r : Runtime α β)
    (hwf : TickerWF r)
    (hpres : ∀ p ∈ handlers, ∀ ids s, TickerWF s → TickerWF (p.2 ids s).1) :
    (Reset.onReset handlers r).tokenFx = [] ∧
    (Reset.onReset handlers r).screenFx = [] ∧
    (Reset.onReset handlers r).tickers = [] ∧
    (Reset.onReset handlers r).installed = [] := by
  have hwf2 : TickerWF (Reset.screenStopPhase handlers (Reset.tokenStopPhase handlers r)) :=
    TickerWF_foldStops hpres _ (TickerWF_tokenStopPhase hpres hwf)
  have hclear := backstopTickerCleanup_clears hwf2
  exact ⟨rfl, rfl, hclear.1, hclear.2⟩

/-- Witness for C6: the concrete runtime with three active effects and the
concrete handler set in which the shake stop handler throws; the reset
leaves both stores and the scheduler empty. -/
theorem c6_global_reset_backstop_witness :
    TickerWF demoResetRuntime ∧
    (∀ p ∈ demoResetHandlers, ∀ ids s, TickerWF s → TickerWF (p.2 ids s).1) ∧
    ((Reset.onReset demoResetHandlers demoResetRuntime).tokenFx = [] ∧
     (Reset.onReset demoResetHandlers demoResetRuntime).screenFx = [] ∧
     (Reset.onReset demoResetHandlers demoResetRuntime).tickers = [] ∧
     (Reset.onReset demoResetHandlers demoResetRuntime).installed = []) := by
  have hpres : ∀ p ∈ demoResetHandlers, ∀ ids s, TickerWF s → TickerWF (p.2 ids s).1 := by
    intro p hp ids s hws
    simp only [demoResetHandlers, List.mem_cons, List.not_mem_nil, or_false] at hp
    rcases hp with rfl | rfl | rfl
    · have hws2 : TickerWF ({ s with tokenFx := [] } : Runtime Unit Unit) := hws
      exact TickerWF_cleanupTicker hws2 "tokenOscillation"
    · exact hws
    · have hws2 : TickerWF ({ s with screenFx := eraseKey s.screenFx "screenPulse" } : Runtime Unit Unit) := hws
      exact TickerWF_cleanupTicker hws2 "screenPulse"
  exact ⟨by decide, hpres,
    c6_global_reset_backstop demoResetHandlers demoResetRuntime (by decide) hpres⟩

theorem restoreTargetBase_snapshot (tv tvc : Osc.TokenView)
    (hx : tvc.tokenX = tv.tokenX) (hy : tvc.tokenY = tv.tokenY)
    (hp : tvc.parentIsToken = tv.parentIsToken) :
    Osc.restoreTargetBase tvc (Osc.snapshotTargetBase tv) = tv := by
  obtain ⟨tx, ty, ⟨x, y, rot, sx, sy⟩, par⟩ := tv
  obtain ⟨tx2, ty2, tgt2, par2⟩ := tvc
  dsimp only at hx hy hp
  subst hx; subst hy; subst hp
  unfold Osc.snapshotTargetBase Osc.restoreTargetBase
  cases par2 <;> simp

theorem osc_stop_singleton (msg : Osc.OscMsg) (tokenId : String)
    (tvc : Osc.TokenView) (st : Osc.OscState)
    (hid : tokenId.isEmpty = false) (hids : msg.tokenIds = [tokenId]) :
    Osc.onStop msg ⟨[(tokenId, tvc)], [(tokenId, st)]⟩ =
      ⟨[(tokenId, Osc.restoreTargetBase tvc st.base)], []⟩ := by
  unfold Osc.onStop Osc.onStopOne
  simp [hids, Osc.asTokenIds, hid, lookupKey, setKey, eraseKey]

theorem osc_tick_singleton (env : TrigEnv) (tokenId : String)
    (tvc : Osc.TokenView) (st : Osc.OscState) (d : ℚ) :
    Osc.tick env ⟨[(tokenId, tvc)], [(tokenId, st)]⟩ d =
      ⟨[(tokenId, (Osc.tickTarget env tvc st d).2)],
       [(tokenId, (Osc.tickTarget env tvc st d).1)]⟩ := by
  unfold Osc.tick Osc.tickOne
  simp [lookupKey, setKey]

theorem osc_singleton_inv (env : TrigEnv) (tokenId : String) (tv : Osc.TokenView)
    (deltas : List ℚ) :
    ∀ (tvc : Osc.TokenView) (st : Osc.OscState),
      tvc.tokenX = tv.tokenX → tvc.tokenY = tv.tokenY →
      tvc.parentIsToken = tv.parentIsToken →
      st.base = Osc.snapshotTargetBase tv →
      ∃ tvc2 st2,
        deltas.foldl (Osc.tick env) ⟨[(tokenId, tvc)], [(tokenId, st)]⟩ =
          ⟨[(tokenId, tvc2)], [(tokenId, st2)]⟩ ∧
        tvc2.tokenX = tv.tokenX ∧ tvc2.tokenY = tv.tokenY ∧
        tvc2.parentIsToken = tv.parentIsToken ∧
        st2.base = Osc.snapshotTargetBase tv := by
  induction deltas with
  | nil =>
      intro tvc st hx hy hp hb
      exact ⟨tvc, st, rfl, hx, hy, hp, hb⟩
  | cons d rest ih =>
      intro tvc st hx hy hp hb
      rw [List.foldl_cons, osc_tick_singleton]
      exact ih (Osc.tickTarget env tvc st d).2 (Osc.tickTarget env tvc st d).1
        hx hy hp hb

theorem shake_tick_pres (env : TrigEnv) (stage0 : Shake.Stage)
    (w : Shake.ShakeWorld) (d : ℚ)
    (h1 : ∀ st, w.state = some st → st.baseX = stage0.x ∧ st.baseY = stage0.y)
    (h2 : w.state = none → w.stage = stage0) :
    (∀ st, (Shake.tick env w d).state = some st →
        st.baseX = stage0.x ∧ st.baseY = stage0.y) ∧
    ((Shake.tick env w d).state = none → (Shake.tick env w d).stage = stage0) := by
  unfold Shake.tick
  cases hs : w.state with
  | none => exact ⟨fun st hst => h1 st (hs ▸ hst), fun _ => h2 hs⟩
  | some st0 =>
      obtain ⟨hx, hy⟩ := h1 st0 hs
      dsimp only
      split
      · constructor
        · intro st hst
          unfold Shake.onStop at hst
          simp at hst
        · intro _
          unfold Shake.onStop
          obtain ⟨s0x, s0y⟩ := stage0
          dsimp only at hx hy ⊢
          rw [hx, hy]
      · constructor
        · intro st hst
          dsimp only at hst
          injection hst with hst
          rw [← hst]
          exact ⟨hx, hy⟩
        · intro h
          simp at h

theorem shake_run_restores (env : TrigEnv) (stage0 : Shake.Stage)
    (deltas : List ℚ) :
    ∀ (w : Shake.ShakeWorld),
      (∀ st, w.state = some st → st.baseX = stage0.x ∧ st.baseY = stage0.y) →
      (w.state = none → w.stage = stage0) →
      (Shake.onStop (deltas.foldl (Shake.tick env) w)).stage = stage0 := by
  induction deltas with
  | nil =>
      intro w h1 h2
      rw [List.foldl_nil]
      unfold Shake.onStop
      dsimp only
      cases hs : w.state with
      | none => exact h2 hs
      | some st =>
          obtain ⟨hx, hy⟩ := h1 st hs
          obtain ⟨s0x, s0y⟩ := stage0
          dsimp only at hx hy ⊢
          rw [hx, hy]
  | cons d rest ih =>
      intro w h1 h2
      rw [List.foldl_cons]
      obtain ⟨g1, g2⟩ := shake_tick_pres env stage0 w d h1 h2
      exact ih (Shake.tick env w d) g1 g2

/-- Claim C1: for a target with a captured baseline, the sequence
`start(params)` → any number of ticks → `stop` restores every
baseline-tracked field exactly: the oscillation target's position, rotation
and scale return to their pre-start values (the whole token view is
restored), and the screen shake restores the stage `x/y` exactly. -/
theorem c1_idempotent_restore :
    (∀ (env : TrigEnv) (msg : Osc.OscMsg) (tokenId : String) (tv : Osc.TokenView)
        (deltas : List ℚ),
        tokenId.isEmpty = false → msg.tokenIds = [tokenId] →
        lookupKey (Osc.onStop msg (deltas.foldl (Osc.tick env)
          (Osc.onStart env msg ⟨[(tokenId, tv)], []⟩))).canvas tokenId = some tv) ∧
    (∀ (env : TrigEnv) (msg : Shake.ShakeMsg) (stage : Shake.Stage) (deltas : List ℚ),
        (Shake.onStop (deltas.foldl (Shake.tick env)
          (Shake.onStart ⟨stage, none⟩ msg))).stage = stage) := by
  constructor
  · intro env msg tokenId tv deltas hid hids
    have hstart : Osc.onStart env msg ⟨[(tokenId, tv)], []⟩ =
        ⟨[(tokenId, tv)],
         [(tokenId,
           { tokenId := tokenId
             base := Osc.snapshotTargetBase tv
             params := Osc.normaliseParams env msg
             phase := Osc.pickPhase env tokenId (Osc.normaliseParams env msg).randomPhase
             t := 0 })]⟩ := by
      unfold Osc.onStart Osc.onStartOne
      simp [hids, Osc.asTokenIds, hid, lookupKey]
    rw [hstart]
    obtain ⟨tvc2, st2, hfold, hx, hy, hp, hb⟩ :=
      osc_singleton_inv env tokenId tv deltas tv
        { tokenId := tokenId
          base := Osc.snapshotTargetBase tv
          params := Osc.normaliseParams env msg
          phase := Osc.pickPhase env tokenId (Osc.normaliseParams env msg).randomPhase
          t := 0 } rfl rfl rfl rfl
    rw [hfold, osc_stop_singleton msg tokenId tvc2 st2 hid hids, hb,
        restoreTargetBase_snapshot tv tvc2 hx hy hp]
    simp [lookupKey]
  · intro env msg stage deltas
    apply shake_run_restores
    · intro st hst
      unfold Shake.onStart at hst
      dsimp only at hst
      injection hst with hst
      rw [← hst]
      exact ⟨rfl, rfl⟩
    · intro hst
      unfold Shake.onStart at hst
      simp at hst

/-- Witness for C1: start with default parameters on a concrete world-mode
token view, tick twice, stop; and a concrete shake started on a concrete
stage, ticked once, stopped — both restore exactly. -/
theorem c1_idempotent_restore_witness :
    ("T1" : String).isEmpty = false ∧
    ({ tokenIds := ["T1"] } : Osc.OscMsg).tokenIds = ["T1"] ∧
    lookupKey (Osc.onStop { tokenIds := ["T1"] } (([16, 17] : List ℚ).foldl (Osc.tick zeroTrig)
      (Osc.onStart zeroTrig { tokenIds := ["T1"] }
        ⟨[("T1", { tokenX := 100, tokenY := 200
                   target := { x := 103, y := 205, rotation := 1, scaleX := 2, scaleY := 3 }
                   parentIsToken := false })], []⟩))).canvas "T1" =
      some { tokenX := 100, tokenY := 200
             target := { x := 103, y := 205, rotation := 1, scaleX := 2, scaleY := 3 }
             parentIsToken := false } ∧
    (Shake.onStop (([16] : List ℚ).foldl (Shake.tick zeroTrig)
      (Shake.onStart ⟨{ x := 7, y := 9 }, none⟩ {}))).stage = { x := 7, y := 9 } :=
  ⟨rfl, rfl,
    (c1_idempotent_restore.1 zeroTrig { tokenIds := ["T1"] } "T1"
      { tokenX := 100, tokenY := 200
        target := { x := 103, y := 205, rotation := 1, scaleX := 2, scaleY := 3 }
        parentIsToken := false } [16, 17] rfl rfl),
    (c1_idempotent_restore.2 zeroTrig {} { x := 7, y := 9 } [16])⟩

theorem clamp_le (v lo hi : ℚ) (h : lo ≤ hi) : lo ≤ clamp v lo hi ∧ clamp v lo hi ≤ hi := by
  unfold clamp
  constructor
  · exact le_min h (le_max_left lo v)
  · exact min_le_left hi _

theorem noise1_bounds (env : TrigEnv) (tokenId : String) (t : ℚ) :
    -1 ≤ Osc.noise1 env tokenId t ∧ Osc.noise1 env tokenId t ≤ 1 := by
  unfold Osc.noise1
  have := clamp_le ((1 * env.sin (t * 17 + Osc.hashStringToUnit tokenId * (2 * env.pi)) +
      3 / 5 * env.sin (t * 29 + Osc.hashStringToUnit tokenId * (4 * env.pi)) +
      3 / 10 * env.sin (t * 41 + Osc.hashStringToUnit tokenId * (6 * env.pi))) / (19 / 10))
    (-1) 1 (by norm_num)
  exact this

theorem osc_jitter_abs_le (env : TrigEnv) (p : Osc.OscParams) (tokenId : String)
    (t : ℚ) (hnoise : 0 ≤ p.noise) (c : ℚ) (hc : 0 ≤ c) :
    |(if 0 < p.noise then Osc.noise1 env tokenId t * p.noise else 0) * c| ≤ p.noise * c := by
  split
  · rw [abs_mul, abs_mul, abs_of_nonneg hc]
    have hn : |Osc.noise1 env tokenId t| ≤ 1 := by
      obtain ⟨h1, h2⟩ := noise1_bounds env tokenId t
      exact abs_le.mpr ⟨h1, h2⟩
    calc |Osc.noise1 env tokenId t| * |p.noise| * c
        ≤ 1 * |p.noise| * c := by
          apply mul_le_mul_of_nonneg_right (mul_le_mul_of_nonneg_right hn (abs_nonneg _)) hc
      _ = |p.noise| * c := by ring
      _ = p.noise * c := by rw [abs_of_nonneg hnoise]
  · simpa using mul_nonneg hnoise hc

/-- Claim C2: for a world-mode baseline, every tick computes the target's
position as the token's current authoritative `x/y` plus the stored
baseline delta plus the bounded sway/bob/jitter offsets, and `onStop`'s
restore writes the token's current `x/y` plus the stored delta; the token's
own `x/y` (and the parent relationship) are never written by the effect.
Given any host sine/cosine bounded by 1, the decorative delta is bounded by
the configured amplitudes. -/
theorem c2_world_mode_drag_safety (env : TrigEnv) (tv : Osc.TokenView)
    (st : Osc.OscState) (deltaMS dx dy : ℚ)
    (hmode : st.base.mode = Osc.BaseMode.worldMode dx dy)
    (hnoise : 0 ≤ st.params.noise)
    (hsin : ∀ x, |env.sin x| ≤ 1) (hcos : ∀ x, |env.cos x| ≤ 1) :
    ((Osc.tickTarget env tv st deltaMS).2.tokenX = tv.tokenX ∧
     (Osc.tickTarget env tv st deltaMS).2.tokenY = tv.tokenY ∧
     (Osc.tickTarget env tv st deltaMS).2.parentIsToken = tv.parentIsToken) ∧
    (let off := Osc.oscOffsets env st.params st.phase st.tokenId
        (st.t + max 0 deltaMS / 1000)
     (Osc.tickTarget env tv st deltaMS).2.target.x =
        tv.tokenX + dx + (off.sway + off.jx) ∧
     (Osc.tickTarget env tv st deltaMS).2.target.y =
        tv.tokenY + dy + (off.bob + off.jy) ∧
     |off.sway + off.jx| ≤ |st.params.swayPx| + st.params.noise * (4 / 5) ∧
     |off.bob + off.jy| ≤ |st.params.bobPx| + st.params.noise * (3 / 5)) ∧
    ((Osc.restoreTargetBase tv st.base).tokenX = tv.tokenX ∧
     (Osc.restoreTargetBase tv st.base).tokenY = tv.tokenY ∧
     (Osc.restoreTargetBase tv st.base).target.x = tv.tokenX + dx ∧
     (Osc.restoreTargetBase tv st.base).target.y = tv.tokenY + dy) := by
  refine ⟨⟨rfl, rfl, rfl⟩, ?_, ?_⟩
  · set t2 := st.t + max 0 deltaMS / 1000 with ht2
    set off := Osc.oscOffsets env st.params st.phase st.tokenId t2 with hoff
    have hxeq : (Osc.tickTarget env tv st deltaMS).2.target.x =
        tv.tokenX + dx + (off.sway + off.jx) := by
      unfold Osc.tickTarget Osc.applyOscToTarget
      rw [hmode]
      dsimp only
      ring
    have hyeq : (Osc.tickTarget env tv st deltaMS).2.target.y =
        tv.tokenY + dy + (off.bob + off.jy) := by
      unfold Osc.tickTarget Osc.applyOscToTarget
      rw [hmode]
      dsimp only
      ring
    refine ⟨hxeq, hyeq, ?_, ?_⟩
    · have hsway : |off.sway| ≤ |st.params.swayPx| := by
        rw [hoff]
        unfold Osc.oscOffsets
        dsimp only
        rw [abs_mul]
        calc |st.params.swayPx| * |env.sin (2 * env.pi * st.params.freqHz * t2 + st.phase)|
            ≤ |st.params.swayPx| * 1 := by
              exact mul_le_mul_of_nonneg_left (hsin _) (abs_nonneg _)
          _ = |st.params.swayPx| := mul_one _
      have hjx : |off.jx| ≤ st.params.noise * (4 / 5) := by
        rw [hoff]
        unfold Osc.oscOffsets
        dsimp only
        exact osc_jitter_abs_le env st.params st.tokenId t2 hnoise (4 / 5) (by norm_num)
      calc |off.sway + off.jx| ≤ |off.sway| + |off.jx| := abs_add _ _
        _ ≤ |st.params.swayPx| + st.params.noise * (4 / 5) := add_le_add hsway hjx
    · have hbob : |off.bob| ≤ |st.params.bobPx| := by
        rw [hoff]
        unfold Osc.oscOffsets
        dsimp only
        rw [abs_mul]
        calc |st.params.bobPx| * |env.cos (2 * env.pi * st.params.freqHz * t2 + st.phase)|
            ≤ |st.params.bobPx| * 1 := by
              exact mul_le_mul_of_nonneg_left (hcos _) (abs_nonneg _)
          _ = |st.params.bobPx| := mul_one _
      have hjy : |off.jy| ≤ st.params.noise * (3 / 5) := by
        rw [hoff]
        unfold Osc.oscOffsets
        dsimp only
        exact osc_jitter_abs_le env st.params st.tokenId t2 hnoise (3 / 5) (by norm_num)
      calc |off.bob + off.jy| ≤ |off.bob| + |off.jy| := abs_add _ _
        _ ≤ |st.params.bobPx| + st.params.noise * (3 / 5) := add_le_add hbob hjy
  · unfold Osc.restoreTargetBase
    rw [hmode]
    exact ⟨rfl, rfl, rfl, rfl⟩

/-- Witness for C2: the concrete world-mode state under the zero-trig host,
ticked with `deltaMS = 16`. -/
theorem c2_world_mode_drag_safety_witness :
    demoWorldState.base.mode = Osc.BaseMode.worldMode 3 4 ∧
    0 ≤ demoWorldState.params.noise ∧
    (∀ x, |zeroTrig.sin x| ≤ 1) ∧ (∀ x, |zeroTrig.cos x| ≤ 1) ∧
    (((Osc.tickTarget zeroTrig demoWorldView demoWorldState 16).2.tokenX = demoWorldView.tokenX ∧
      (Osc.tickTarget zeroTrig demoWorldView demoWorldState 16).2.tokenY = demoWorldView.tokenY ∧
      (Osc.tickTarget zeroTrig demoWorldView demoWorldState 16).2.parentIsToken = demoWorldView.parentIsToken) ∧
     (let off := Osc.oscOffsets zeroTrig demoWorldState.params demoWorldState.phase
          demoWorldState.tokenId (demoWorldState.t + max 0 16 / 1000)
      (Osc.tickTarget zeroTrig demoWorldView demoWorldState 16).2.target.x =
         demoWorldView.tokenX + 3 + (off.sway + off.jx) ∧
      (Osc.tickTarget zeroTrig demoWorldView demoWorldState 16).2.target.y =
         demoWorldView.tokenY + 4 + (off.bob + off.jy) ∧
      |off.sway + off.jx| ≤ |demoWorldState.params.swayPx| + demoWorldState.params.noise * (4 / 5) ∧
      |off.bob + off.jy| ≤ |demoWorldState.params.bobPx| + demoWorldState.params.noise * (3 / 5)) ∧
     ((Osc.restoreTargetBase demoWorldView demoWorldState.base).tokenX = demoWorldView.tokenX ∧
      (Osc.restoreTargetBase demoWorldView demoWorldState.base).tokenY = demoWorldView.tokenY ∧
      (Osc.restoreTargetBase demoWorldView demoWorldState.base).target.x = demoWorldView.tokenX + 3 ∧
      (Osc.restoreTargetBase demoWorldView demoWorldState.base).target.y = demoWorldView.tokenY + 4)) :=
  ⟨rfl, by norm_num [demoWorldState, Osc.normaliseParams, clamp],
    fun x => by norm_num [zeroTrig], fun x => by norm_num [zeroTrig],
    c2_world_mode_drag_safety zeroTrig demoWorldView demoWorldState 16 3 4 rfl
      (by norm_num [demoWorldState, Osc.normaliseParams, clamp])
      (fun x => by norm_num [zeroTrig]) (fun x => by norm_num [zeroTrig])⟩

/-- Claim C10: elapsed time is monotone — the oscillation tick advances the
per-state accumulator `t` by `max(0, deltaMS)/1000` and the shake tick
advances `elapsedMs` by `max(0, deltaMS)`, so a negative host frame delta
never rewinds elapsed time. -/
theorem c10_elapsed_monotone :
    (∀ (env : TrigEnv) (tv : Osc.TokenView) (st : Osc.OscState) (deltaMS : ℚ),
        (Osc.tickTarget env tv st deltaMS).1.t = st.t + max 0 deltaMS / 1000 ∧
        st.t ≤ (Osc.tickTarget env tv st deltaMS).1.t) ∧
    (∀ (env : TrigEnv) (w : Shake.ShakeWorld) (st : Shake.ShakeState) (deltaMS : ℚ)
        (st2 : Shake.ShakeState),
        w.state = some st → (Shake.tick env w deltaMS).state = some st2 →
        st2.elapsedMs = st.elapsedMs + max 0 deltaMS ∧ st.elapsedMs ≤ st2.elapsedMs) := by
  constructor
  · intro env tv st deltaMS
    refine ⟨rfl, ?_⟩
    have h : (0 : ℚ) ≤ max 0 deltaMS / 1000 := by positivity
    show st.t ≤ st.t + max 0 deltaMS / 1000
    linarith
  · intro env w st deltaMS st2 hs hst
    unfold Shake.tick at hst
    rw [hs] at hst
    dsimp only at hst
    revert hst
    split
    · intro hst
      unfold Shake.onStop at hst
      simp at hst
    · intro hst
      injection hst with hst
      rw [← hst]
      refine ⟨rfl, ?_⟩
      have h : (0 : ℚ) ≤ max 0 deltaMS := le_max_left 0 deltaMS
      show st.elapsedMs ≤ st.elapsedMs + max 0 deltaMS
      linarith

/-- Witness for C10: a shake state ticked with a negative frame delta keeps
its elapsed accumulator unchanged rather than rewinding. -/
theorem c10_elapsed_monotone_witness :
    (⟨{ x := 0, y := 0 }, some demoShakeState⟩ : Shake.ShakeWorld).state = some demoShakeState ∧
    (Shake.tick zeroTrig ⟨{ x := 0, y := 0 }, some demoShakeState⟩ (-8)).state =
      some demoShakeStateAfter ∧
    demoShakeStateAfter.elapsedMs = demoShakeState.elapsedMs + max 0 (-8) ∧
    demoShakeState.elapsedMs ≤ demoShakeStateAfter.elapsedMs :=
  have htick : (Shake.tick zeroTrig ⟨{ x := 0, y := 0 }, some demoShakeState⟩ (-8)).state =
      some demoShakeStateAfter := by
    norm_num [Shake.tick, Shake.onStop, demoShakeState, demoShakeStateAfter,
      Shake.normaliseParams, clamp]
  ⟨rfl, htick,
    (c10_elapsed_monotone.2 zeroTrig ⟨{ x := 0, y := 0 }, some demoShakeState⟩
      demoShakeState (-8) demoShakeStateAfter rfl htick)⟩

theorem sclamp_le (v lo hi : ℚ) (h : lo ≤ hi) :
    lo ≤ Smear.sclamp v lo hi ∧ Smear.sclamp v lo hi ≤ hi := by
  unfold Smear.sclamp
  exact ⟨le_max_left lo _, max_le h (min_le_left hi v)⟩

/-- Counterexample for C5: the chromatic-aberration normaliser clamps the
duration to `[0, 600000]` with no exact-zero sentinel branch — a supplied
duration of `0.5` ms is stored as `0.5` (neither `0` nor within the claimed
`[1, 60000]` / `[1, 600000]` band), and a supplied `-5` collapses to the
indefinite sentinel `0` although the caller asked for a finite duration. -/
theorem c5_duration_sentinel_counterexample :
    (ChromAb.normaliseParams { durationMs := some (1 / 2) }).durationMs = 1 / 2 ∧
    (ChromAb.normaliseParams { durationMs := some (1 / 2) }).durationMs ≠ 0 ∧
    ¬ (1 ≤ (ChromAb.normaliseParams { durationMs := some (1 / 2) }).durationMs) ∧
    (ChromAb.normaliseParams { durationMs := some (-5) }).durationMs = 0 := by
  have h1 : clamp (1 / 2 : ℚ) 0 600000 = 1 / 2 := by
    unfold clamp
    rw [max_eq_right (by norm_num), min_eq_right (by norm_num)]
  have h2 : clamp (-5 : ℚ) 0 600000 = 0 := by
    unfold clamp
    rw [max_eq_left (by norm_num), min_eq_right (by norm_num)]
  refine ⟨?_, ?_, ?_, ?_⟩ <;>
    simp only [ChromAb.normaliseParams, Option.getD_some, h1, h2] <;> norm_num

theorem shake_duration_range (msg : Shake.ShakeMsg) :
    (Shake.normaliseParams msg).durationMs = 0 ∨
    (1 ≤ (Shake.normaliseParams msg).durationMs ∧
      (Shake.normaliseParams msg).durationMs ≤ 60000) := by
  unfold Shake.normaliseParams
  dsimp only
  split
  · exact Or.inl rfl
  · exact Or.inr (clamp_le _ 1 60000 (by norm_num))

theorem pulse_duration_range (msg : Pulse.PulseMsg) :
    (Pulse.normaliseParams msg).durationMs = 0 ∨
    (1 ≤ (Pulse.normaliseParams msg).durationMs ∧
      (Pulse.normaliseParams msg).durationMs ≤ 60000) := by
  unfold Pulse.normaliseParams
  dsimp only
  split
  · exact Or.inl rfl
  · exact Or.inr (clamp_le _ 1 60000 (by norm_num))

theorem smear_duration_range (msg : Smear.SmearMsg) :
    (Smear.normaliseParams msg).durationMs = 0 ∨
    (1 ≤ (Smear.normaliseParams msg).durationMs ∧
      (Smear.normaliseParams msg).durationMs ≤ 600000) := by
  unfold Smear.normaliseParams
  dsimp only
  split
  · exact Or.inl rfl
  · exact Or.inr (sclamp_le _ 1 600000 (by norm_num))

theorem shake_autostop_iff (env : TrigEnv) (stage : Shake.Stage)
    (st : Shake.ShakeState) (d : ℚ) :
    (Shake.tick env ⟨stage, some st⟩ d).state = none ↔
      st.params.durationMs ≠ 0 ∧
      st.params.durationMs ≤ st.elapsedMs + max 0 d := by
  unfold Shake.tick
  dsimp only
  split
  · next h => exact iff_of_true (by simp [Shake.onStop]) h
  · next h => exact iff_of_false (by simp) h

theorem chromab_autostop_iff (env : TrigEnv) (a b : ℚ)
    (st : ChromAb.ChromAbState) (d : ℚ) :
    (ChromAb.tick env ⟨some st, a, b⟩ d).state = none ↔
      0 < st.params.durationMs ∧
      st.params.durationMs ≤ st.elapsedMs + max 0 d := by
  unfold ChromAb.tick
  dsimp only
  split
  · next h => exact iff_of_true rfl h
  · next h => exact iff_of_false (by simp) h

/-- Claim C5 (amended): the screen shake and screen pulse keep a supplied
duration of exactly `0` as the run-until-stopped sentinel and clamp every
other value to `[1, 60000]` ms; the render-feedback smear does the same
with `[1, 600000]` ms; the chromatic aberration instead clamps the duration
to `[0, 600000]` with no exact-zero sentinel branch, so sub-millisecond
positive values are stored as supplied and negative values become the
indefinite sentinel `0`. Auto-stop fires exactly when the accumulated
elapsed time reaches the stored duration and not before, and never when the
stored duration is `0`. -/
theorem c5_duration_sentinel_amended :
    (∀ msg, msg.durationMs = some 0 → (Shake.normaliseParams msg).durationMs = 0) ∧
    (∀ msg, (Shake.normaliseParams msg).durationMs = 0 ∨
      (1 ≤ (Shake.normaliseParams msg).durationMs ∧
        (Shake.normaliseParams msg).durationMs ≤ 60000)) ∧
    (∀ msg, (Pulse.normaliseParams msg).durationMs = 0 ∨
      (1 ≤ (Pulse.normaliseParams msg).durationMs ∧
        (Pulse.normaliseParams msg).durationMs ≤ 60000)) ∧
    (∀ msg, (Smear.normaliseParams msg).durationMs = 0 ∨
      (1 ≤ (Smear.normaliseParams msg).durationMs ∧
        (Smear.normaliseParams msg).durationMs ≤ 600000)) ∧
    (∀ msg, 0 ≤ (ChromAb.normaliseParams msg).durationMs ∧
      (ChromAb.normaliseParams msg).durationMs ≤ 600000) ∧
    (∀ (env : TrigEnv) (stage : Shake.Stage) (st : Shake.ShakeState) (d : ℚ),
      (Shake.tick env ⟨stage, some st⟩ d).state = none ↔
        st.params.durationMs ≠ 0 ∧
        st.params.durationMs ≤ st.elapsedMs + max 0 d) ∧
    (∀ (env : TrigEnv) (a b : ℚ) (st : ChromAb.ChromAbState) (d : ℚ),
      (ChromAb.tick env ⟨some st, a, b⟩ d).state = none ↔
        0 < st.params.durationMs ∧
        st.params.durationMs ≤ st.elapsedMs + max 0 d) := by
  refine ⟨?_, shake_duration_range, pulse_duration_range, smear_duration_range,
    ?_, shake_autostop_iff, chromab_autostop_iff⟩
  · intro msg h
    unfold Shake.normaliseParams
    simp [h]
  · intro msg
    unfold ChromAb.normaliseParams
    dsimp only
    exact clamp_le _ 0 600000 (by norm_num)

/-- Witness for C5 (amended): a supplied duration of exactly `0` on the
shake normaliser is kept as the indefinite sentinel. -/
theorem c5_duration_sentinel_amended_witness :
    ({ durationMs := some 0 } : Shake.ShakeMsg).durationMs = some 0 ∧
    (Shake.normaliseParams { durationMs := some 0 }).durationMs = 0 :=
  ⟨rfl, c5_duration_sentinel_amended.1 { durationMs := some 0 } rfl⟩

theorem fnv1a32_foldl_lt (codes : List Nat) :
    ∀ init, init < 2 ^ 32 → codes.foldl Osc.fnv1a32Step init < 2 ^ 32 := by
  induction codes with
  | nil => intro init h; exact h
  | cons c rest ih =>
      intro init _
      rw [List.foldl_cons]
      exact ih _ (Nat.mod_lt _ (by norm_num))

theorem fnv1a32_lt (codes : List Nat) : Osc.fnv1a32 codes < 2 ^ 32 :=
  fnv1a32_foldl_lt codes 2166136261 (by norm_num)

theorem hashStringToUnit_range (s : String) :
    0 ≤ Osc.hashStringToUnit s ∧ Osc.hashStringToUnit s < 1 := by
  unfold Osc.hashStringToUnit
  constructor
  · positivity
  · rw [div_lt_one (by positivity)]
    have h := fnv1a32_lt (Osc.charCodes s)
    calc (Osc.fnv1a32 (Osc.charCodes s) : ℚ) < ((2 ^ 32 : Nat) : ℚ) := by
          exact_mod_cast h
      _ = (2 ^ 32 : ℚ) := by norm_num

/-- Counterexample for C7: the screen smear's per-tick jitter consumes fresh
`Math.random()` draws (modelled as the explicit inputs `r1`, `r2`). Two
evaluations of the per-tick displacement with identical parameters,
identical camera delta, and identical elapsed time, differing only in the
random draw, produce different results — so the smear tick output is not a
deterministic function of inputs and elapsed time, contradicting the claim
that every stochastic-looking output of the pipeline is. -/
theorem c7_determinism_counterexample :
    (Smear.tickOffset (Smear.normaliseParams {}) 0 0 0 0).1 = -1 ∧
    (Smear.tickOffset (Smear.normaliseParams {}) 0 0 1 0).1 = 1 ∧
    (Smear.tickOffset (Smear.normaliseParams {}) 0 0 0 0).1 ≠
      (Smear.tickOffset (Smear.normaliseParams {}) 0 0 1 0).1 := by
  have h1 : (Smear.tickOffset (Smear.normaliseParams {}) 0 0 0 0).1 = -1 := by
    simp only [Smear.tickOffset, Smear.normaliseParams, Smear.sclamp, Option.getD_none,
      Option.getD_some]
    norm_num [min_def, max_def]
  have h2 : (Smear.tickOffset (Smear.normaliseParams {}) 0 0 1 0).1 = 1 := by
    simp only [Smear.tickOffset, Smear.normaliseParams, Smear.sclamp, Option.getD_none,
      Option.getD_some]
    norm_num [min_def, max_def]
  refine ⟨h1, h2, ?_⟩
  rw [h1, h2]
  norm_num

/-- Claim C7 (amended): `hashToUnit` is a fixed pure function — the same
string yields the same value on every invocation (`"token-42"` hashes to the
constant `4004642667 / 2^32`) and always lands in `[0, 1)`; the oscillation
noise is deterministic and bounded in `[-1, 1]`; and the oscillation
per-tick output is a function of exactly the state's fields, parameters and
elapsed time (two states agreeing on those produce bit-identical output).
The smear jitter, by contrast, consumes fresh `Math.random()` draws each
tick and is therefore excluded (see the counterexample). -/
theorem c7_determinism_amended :
    Osc.fnv1a32 (Osc.charCodes "token-42") = 4004642667 ∧
    Osc.hashStringToUnit "token-42" = (4004642667 : ℚ) / 4294967296 ∧
    (∀ s, 0 ≤ Osc.hashStringToUnit s ∧ Osc.hashStringToUnit s < 1) ∧
    (∀ (env : TrigEnv) (tokenId : String) (t : ℚ),
        -1 ≤ Osc.noise1 env tokenId t ∧ Osc.noise1 env tokenId t ≤ 1) ∧
    (∀ (env : TrigEnv) (tv : Osc.TokenView) (st1 st2 : Osc.OscState) (d : ℚ),
        st1.tokenId = st2.tokenId → st1.base = st2.base → st1.params = st2.params →
        st1.phase = st2.phase → st1.t = st2.t →
        Osc.tickTarget env tv st1 d = Osc.tickTarget env tv st2 d) := by
  have hfnv : Osc.fnv1a32 (Osc.charCodes "token-42") = 4004642667 := by decide
  refine ⟨hfnv, ?_, hashStringToUnit_range, noise1_bounds, ?_⟩
  · unfold Osc.hashStringToUnit
    rw [hfnv]
    norm_num
  · intro env tv st1 st2 d h1 h2 h3 h4 h5
    obtain ⟨i1, b1, p1, f1, t1⟩ := st1
    obtain ⟨i2, b2, p2, f2, t2⟩ := st2
    dsimp only at h1 h2 h3 h4 h5
    subst h1; subst h2; subst h3; subst h4; subst h5
    rfl

/-- Witness for C7 (amended): two separately written oscillation states with
identical fields produce bit-identical tick output. -/
theorem c7_determinism_amended_witness :
    demoWorldState.tokenId = demoWorldStateCopy.tokenId ∧
    demoWorldState.base = demoWorldStateCopy.base ∧
    demoWorldState.params = demoWorldStateCopy.params ∧
    demoWorldState.phase = demoWorldStateCopy.phase ∧
    demoWorldState.t = demoWorldStateCopy.t ∧
    Osc.tickTarget zeroTrig demoWorldView demoWorldState 16 =
      Osc.tickTarget zeroTrig demoWorldView demoWorldStateCopy 16 :=
  ⟨rfl, rfl, rfl, rfl, rfl,
    c7_determinism_amended.2.2.2.2 zeroTrig demoWorldView demoWorldState
      demoWorldStateCopy 16 rfl rfl rfl rfl rfl⟩

theorem clamp_eq_self {t : ℚ} (h0 : 0 ≤ t) (h1 : t ≤ 1) : clamp t 0 1 = t := by
  unfold clamp
  rw [max_eq_right h0, min_eq_right h1]

theorem sclamp_eq_self {t : ℚ} (h0 : 0 ≤ t) (h1 : t ≤ 1) : Smear.sclamp t 0 1 = t := by
  unfold Smear.sclamp
  rw [min_eq_right h1, max_eq_right h0]

/-- Counterexample for C8: the claim's formulas (`linear = t`, with
`envelope(kind, 1) = 1`) fail on both cited envelope functions — the screen
pulse's envelope folds time into a triangle and returns `0` at `t = 1` even
for `linear`, and the chromatic aberration's envelope maps `linear` to the
constant `1`, so it returns `1` at `t = 0`. -/
theorem c8_envelope_counterexample :
    Pulse.envelope "linear" 1 = 0 ∧ Pulse.envelope "linear" 1 ≠ 1 ∧
    ChromAb.easeEnvelope "linear" 0 = 1 ∧ ChromAb.easeEnvelope "linear" 0 ≠ 0 := by
  have hp : Pulse.envelope "linear" 1 = 0 := by
    unfold Pulse.envelope
    rw [if_pos rfl, clamp_eq_self (by norm_num) le_rfl]
    rw [show |2 * (1 : ℚ) - 1| = 1 by norm_num]
    norm_num
  have hc : ChromAb.easeEnvelope "linear" 0 = 1 := by
    unfold ChromAb.easeEnvelope
    rw [if_pos rfl]
  refine ⟨hp, by rw [hp]; norm_num, hc, by rw [hc]; norm_num⟩

theorem smear_easeValue_formula (kind : String) (t : ℚ) (h0 : 0 ≤ t) (h1 : t ≤ 1) :
    Smear.easeValue kind t =
      (if kind = "in" then t * t
       else if kind = "out" then 1 - (1 - t) * (1 - t)
       else if kind = "linear" then t
       else t * t * (3 - 2 * t)) := by
  unfold Smear.easeValue
  rw [sclamp_eq_self h0 h1]

theorem smear_easeValue_boundaries (kind : String) :
    Smear.easeValue kind 0 = 0 ∧ Smear.easeValue kind 1 = 1 := by
  constructor
  · rw [smear_easeValue_formula kind 0 le_rfl (by norm_num)]
    repeat' split
    all_goals norm_num
  · rw [smear_easeValue_formula kind 1 (by norm_num) le_rfl]
    repeat' split
    all_goals norm_num

theorem pulse_envelope_boundaries (kind : String) :
    Pulse.envelope kind 0 = 0 ∧ Pulse.envelope kind 1 = 0 := by
  have habs0 : |2 * (0 : ℚ) - 1| = 1 := by
    rw [show 2 * (0 : ℚ) - 1 = -1 by norm_num, abs_neg, abs_one]
  have habs1 : |2 * (1 : ℚ) - 1| = 1 := by norm_num
  constructor
  · unfold Pulse.envelope
    rw [clamp_eq_self le_rfl (by norm_num)]
    dsimp only
    rw [habs0]
    repeat' split
    all_goals norm_num [easeOutQuad, clamp, min_def, max_def]
  · unfold Pulse.envelope
    rw [clamp_eq_self (by norm_num) le_rfl]
    dsimp only
    rw [habs1]
    repeat' split
    all_goals norm_num [easeOutQuad, clamp, min_def, max_def]

theorem chromab_easeEnvelope_facts (t : ℚ) (h0 : 0 ≤ t) (h1 : t ≤ 1) :
    ChromAb.easeEnvelope "linear" t = 1 ∧
    ChromAb.easeEnvelope "in" t = t * t ∧
    ChromAb.easeEnvelope "out" t = 1 - (1 - t) * (1 - t) ∧
    ChromAb.easeEnvelope "inOut" t = t * t * (3 - 2 * t) := by
  unfold ChromAb.easeEnvelope
  dsimp only
  rw [clamp_eq_self h0 h1]
  refine ⟨?_, ?_, ?_, ?_⟩
  · rw [if_pos rfl]
  · rw [if_neg (by decide), if_pos rfl]
  · rw [if_neg (by decide), if_neg (by decide), if_pos rfl]
  · rw [if_neg (by decide), if_neg (by decide), if_neg (by decide)]

theorem chromab_easeEnvelope_one (kind : String) :
    ChromAb.easeEnvelope kind 1 = 1 := by
  unfold ChromAb.easeEnvelope
  rw [clamp_eq_self (by norm_num) le_rfl]
  repeat' split
  all_goals norm_num

/-- Claim C8 (amended): the claimed formulas (`linear = t`, `in = t²`,
`out = 1-(1-t)²`, `inOut = t²(3-2t)`, with value `0` at `t = 0` and `1` at
`t = 1`) hold exactly for the screen smear's `easeValue`. The screen pulse's
`envelope` instead folds the clamped time into the triangle `1 - |2t - 1|`
before easing, so it is `0` at both endpoints (peaking at the midpoint); the
chromatic aberration's `easeEnvelope` maps `linear` to the constant `1` and
uses the claimed `in`/`out`/`inOut` formulas, so it is `1` at `t = 1` for
every kind but `1` rather than `0` at `t = 0` for `linear`. -/
theorem c8_envelope_amended :
    (∀ (kind : String) (t : ℚ), 0 ≤ t → t ≤ 1 →
        Smear.easeValue kind t =
          (if kind = "in" then t * t
           else if kind = "out" then 1 - (1 - t) * (1 - t)
           else if kind = "linear" then t
           else t * t * (3 - 2 * t))) ∧
    (∀ kind, Smear.easeValue kind 0 = 0 ∧ Smear.easeValue kind 1 = 1) ∧
    (∀ t : ℚ, Pulse.envelope "linear" t = 1 - |2 * clamp t 0 1 - 1|) ∧
    (∀ kind, Pulse.envelope kind 0 = 0 ∧ Pulse.envelope kind 1 = 0) ∧
    (∀ (t : ℚ), 0 ≤ t → t ≤ 1 →
        ChromAb.easeEnvelope "linear" t = 1 ∧
        ChromAb.easeEnvelope "in" t = t * t ∧
        ChromAb.easeEnvelope "out" t = 1 - (1 - t) * (1 - t) ∧
        ChromAb.easeEnvelope "inOut" t = t * t * (3 - 2 * t)) ∧
    (∀ kind, ChromAb.easeEnvelope kind 1 = 1) := by
  refine ⟨smear_easeValue_formula, smear_easeValue_boundaries, ?_,
    pulse_envelope_boundaries, chromab_easeEnvelope_facts, chromab_easeEnvelope_one⟩
  intro t
  unfold Pulse.envelope
  rw [if_pos rfl]

/-- Witness for C8 (amended): the smear ease at the midpoint of `inOut`. -/
theorem c8_envelope_amended_witness :
    (0 : ℚ) ≤ 1 / 2 ∧ (1 / 2 : ℚ) ≤ 1 ∧
    Smear.easeValue "inOut" (1 / 2) =
      (if ("inOut" : String) = "in" then (1 / 2 : ℚ) * (1 / 2)
       else if ("inOut" : String) = "out" then 1 - (1 - 1 / 2) * (1 - 1 / 2)
       else if ("inOut" : String) = "linear" then 1 / 2
       else 1 / 2 * (1 / 2) * (3 - 2 * (1 / 2))) :=
  ⟨by norm_num, by norm_num,
    c8_envelope_amended.1 "inOut" (1 / 2) (by norm_num) (by norm_num)⟩

theorem clamp_mono {a b : ℚ} (h : a ≤ b) (lo hi : ℚ) :
    clamp a lo hi ≤ clamp b lo hi := by
  unfold clamp
  exact min_le_min le_rfl (max_le_max le_rfl h)

/-- Counterexample for C9: the screen pulse's normaliser clamps `minAlpha`
and `maxAlpha` independently and performs no reordering — supplying an
inverted pair stores an inverted pair, so not every stored normalized
parameter set satisfies `min ≤ max`. -/
theorem c9_minmax_counterexample :
    (Pulse.normaliseParams { minAlpha := some (9 / 10), maxAlpha := some (1 / 10) }).minAlpha
      = 9 / 10 ∧
    (Pulse.normaliseParams { minAlpha := some (9 / 10), maxAlpha := some (1 / 10) }).maxAlpha
      = 1 / 10 ∧
    ¬ ((Pulse.normaliseParams { minAlpha := some (9 / 10), maxAlpha := some (1 / 10) }).minAlpha ≤
        (Pulse.normaliseParams { minAlpha := some (9 / 10), maxAlpha := some (1 / 10) }).maxAlpha) := by
  have h1 : (Pulse.normaliseParams { minAlpha := some (9 / 10), maxAlpha := some (1 / 10) }).minAlpha
      = 9 / 10 := by
    unfold Pulse.normaliseParams
    dsimp only [Option.getD_some]
    exact clamp_eq_self (by norm_num) (by norm_num)
  have h2 : (Pulse.normaliseParams { minAlpha := some (9 / 10), maxAlpha := some (1 / 10) }).maxAlpha
      = 1 / 10 := by
    unfold Pulse.normaliseParams
    dsimp only [Option.getD_some]
    exact clamp_eq_self (by norm_num) (by norm_num)
  refine ⟨h1, h2, ?_⟩
  rw [h1, h2]
  norm_num

/-- Claim C9 (amended): only the chromatic aberration reorders its min/max
pair at normalization (`minAmountPx ≤ maxAmountPx` always holds in stored
params). The screen pulse and screen smear store the clamped pair as
supplied — possibly inverted — and instead reorder at each tick:
the pulse's oscillation alpha and the smear's oscillating strength always
lie within the reordered `[min, max]` band of the stored pair. -/
theorem c9_minmax_amended :
    (∀ msg, (ChromAb.normaliseParams msg).minAmountPx ≤
        (ChromAb.normaliseParams msg).maxAmountPx) ∧
    (∀ (p : Pulse.PulseParams) (wv : ℚ), 0 ≤ wv → wv ≤ 1 →
        min p.minAlpha p.maxAlpha ≤ Pulse.oscAlpha p wv ∧
        Pulse.oscAlpha p wv ≤ max p.minAlpha p.maxAlpha) ∧
    (∀ (env : TrigEnv) (p : Smear.SmearParams) (es : ℚ),
        (∀ x, |env.sin x| ≤ 1) → 0 < p.freqHz →
        min p.minStrength p.maxStrength ≤ Smear.strengthNow env p es ∧
        Smear.strengthNow env p es ≤ max p.minStrength p.maxStrength) := by
  refine ⟨?_, ?_, ?_⟩
  · intro msg
    unfold ChromAb.normaliseParams
    dsimp only
    exact clamp_mono (min_le_max) 0 30
  · intro p wv h0 h1
    unfold Pulse.oscAlpha
    dsimp only
    have hd : (0 : ℚ) ≤ max p.minAlpha p.maxAlpha - min p.minAlpha p.maxAlpha :=
      sub_nonneg.mpr min_le_max
    have hm1 : (max p.minAlpha p.maxAlpha - min p.minAlpha p.maxAlpha) * wv ≤
        (max p.minAlpha p.maxAlpha - min p.minAlpha p.maxAlpha) * 1 :=
      mul_le_mul_of_nonneg_left h1 hd
    have hm0 : 0 ≤ (max p.minAlpha p.maxAlpha - min p.minAlpha p.maxAlpha) * wv :=
      mul_nonneg hd h0
    constructor <;> linarith
  · intro env p es hsin hfreq
    unfold Smear.strengthNow
    rw [if_pos hfreq]
    dsimp only
    have hs := abs_le.mp (hsin (es * p.freqHz * env.pi * 2))
    have h0 : 0 ≤ (env.sin (es * p.freqHz * env.pi * 2) + 1) * (1 / 2) := by
      have := hs.1
      nlinarith
    have h1 : (env.sin (es * p.freqHz * env.pi * 2) + 1) * (1 / 2) ≤ 1 := by
      have := hs.2
      nlinarith
    have hd : (0 : ℚ) ≤ max p.minStrength p.maxStrength - min p.minStrength p.maxStrength :=
      sub_nonneg.mpr min_le_max
    have hm1 : (max p.minStrength p.maxStrength - min p.minStrength p.maxStrength) *
        ((env.sin (es * p.freqHz * env.pi * 2) + 1) * (1 / 2)) ≤
        (max p.minStrength p.maxStrength - min p.minStrength p.maxStrength) * 1 :=
      mul_le_mul_of_nonneg_left h1 hd
    have hm0 : 0 ≤ (max p.minStrength p.maxStrength - min p.minStrength p.maxStrength) *
        ((env.sin (es * p.freqHz * env.pi * 2) + 1) * (1 / 2)) :=
      mul_nonneg hd h0
    constructor <;> linarith

/-- Witness for C9 (amended): the pulse oscillation alpha of an inverted
stored pair at mid-wave lies within the reordered band. -/
theorem c9_minmax_amended_witness :
    (0 : ℚ) ≤ 1 / 2 ∧ (1 / 2 : ℚ) ≤ 1 ∧
    (min (Pulse.normaliseParams { minAlpha := some (9 / 10), maxAlpha := some (1 / 10) }).minAlpha
        (Pulse.normaliseParams { minAlpha := some (9 / 10), maxAlpha := some (1 / 10) }).maxAlpha ≤
      Pulse.oscAlpha (Pulse.normaliseParams { minAlpha := some (9 / 10), maxAlpha := some (1 / 10) }) (1 / 2) ∧
     Pulse.oscAlpha (Pulse.normaliseParams { minAlpha := some (9 / 10), maxAlpha := some (1 / 10) }) (1 / 2) ≤
      max (Pulse.normaliseParams { minAlpha := some (9 / 10), maxAlpha := some (1 / 10) }).minAlpha
        (Pulse.normaliseParams { minAlpha := some (9 / 10), maxAlpha := some (1 / 10) }).maxAlpha) :=
  ⟨by norm_num, by norm_num,
    c9_minmax_amended.2.1 (Pulse.normaliseParams { minAlpha := some (9 / 10), maxAlpha := some (1 / 10) })
      (1 / 2) (by norm_num) (by norm_num)⟩

/-- Witness for C4: a concrete runtime with one installed ticker whose body
always throws; the hypotheses hold and the ticker is gone afterwards. -/
theorem c4_tick_failure_containment_witness :
    ((fun (s : Runtime Unit Unit) (_ : ℚ) => (s, (Except.error "boom" : Except String Unit)))
        (ensureTicker (initRuntime Unit Unit) "tokenOscillation") ((none : Option ℚ).getD (1000 / 60))).2
      = Except.error "boom" ∧
    TickerWF ((fun (s : Runtime Unit Unit) (_ : ℚ) => (s, (Except.error "boom" : Except String Unit)))
        (ensureTicker (initRuntime Unit Unit) "tokenOscillation") ((none : Option ℚ).getD (1000 / 60))).1 ∧
    (lookupKey (wrappedTick
        (fun (s : Runtime Unit Unit) (_ : ℚ) => (s, (Except.error "boom" : Except String Unit)))
        "tokenOscillation" (ensureTicker (initRuntime Unit Unit) "tokenOscillation") none).tickers
        "tokenOscillation" = none ∧
      countKey (wrappedTick
        (fun (s : Runtime Unit Unit) (_ : ℚ) => (s, (Except.error "boom" : Except String Unit)))
        "tokenOscillation" (ensureTicker (initRuntime Unit Unit) "tokenOscillation") none).installed
        "tokenOscillation" = 0 ∧
      (wrappedTick
        (fun (s : Runtime Unit Unit) (_ : ℚ) => (s, (Except.error "boom" : Except String Unit)))
        "tokenOscillation" (ensureTicker (initRuntime Unit Unit) "tokenOscillation") none).log =
        ((fun (s : Runtime Unit Unit) (_ : ℚ) => (s, (Except.error "boom" : Except String Unit)))
          (ensureTicker (initRuntime Unit Unit) "tokenOscillation")
          ((none : Option ℚ).getD (1000 / 60))).1.log ++
          ["tokenOscillation" ++ " tick failed: " ++ "boom"]) :=
  ⟨rfl, by decide,
    c4_tick_failure_containment
      (fun (s : Runtime Unit Unit) (_ : ℚ) => (s, (Except.error "boom" : Except String Unit)))
      "tokenOscillation" (ensureTicker (initRuntime Unit Unit) "tokenOscillation") none "boom"
      rfl (by decide)⟩

end FxBus
